import Mathlib

/-!
Shallow embedding of the restaurant-ordering-system services
(`order.service.ts`, `delivery.service.ts`, `queue.service.ts`) and the
claims about them.  Database rows are lists of structures inside one
explicit state `St`; every service method becomes a pure function
`St → Except Err (α × St)` (a thrown error aborts the transaction, leaving
the state unchanged).  Monetary values are `Rat`, timestamps are `Nat`,
generated identifiers come from a counter in the state.
-/

namespace RestaurantOrdering

/-- Order lifecycle states, from the `OrderStatus` Prisma enum. -/
inductive OrderStatus
  | PENDING
  | CONFIRMED
  | PREPARING
  | ON_THE_WAY
  | DELIVERED
  | CANCELLED
deriving DecidableEq, Repr

/-- Printed form used in error messages (`Cannot transition from X to Y`). -/
def OrderStatus.name : OrderStatus → String
  | .PENDING => "PENDING"
  | .CONFIRMED => "CONFIRMED"
  | .PREPARING => "PREPARING"
  | .ON_THE_WAY => "ON_THE_WAY"
  | .DELIVERED => "DELIVERED"
  | .CANCELLED => "CANCELLED"

/-- `STATUS_TRANSITIONS` table from `order.service.ts`. -/
def STATUS_TRANSITIONS : OrderStatus → List OrderStatus
  | .PENDING => [.CONFIRMED, .CANCELLED]
  | .CONFIRMED => [.PREPARING, .CANCELLED]
  | .PREPARING => [.ON_THE_WAY, .CANCELLED]
  | .ON_THE_WAY => [.DELIVERED, .CANCELLED]
  | .DELIVERED => []
  | .CANCELLED => []

/-- Delivery lifecycle states, from the `DeliveryStatus` Prisma enum. -/
inductive DeliveryStatus
  | ASSIGNED
  | PICKED_UP
  | IN_TRANSIT
  | DELIVERED
deriving DecidableEq, Repr

def DeliveryStatus.name : DeliveryStatus → String
  | .ASSIGNED => "ASSIGNED"
  | .PICKED_UP => "PICKED_UP"
  | .IN_TRANSIT => "IN_TRANSIT"
  | .DELIVERED => "DELIVERED"

/-- `DELIVERY_STATUS_TRANSITIONS` table from `delivery.service.ts`. -/
def DELIVERY_STATUS_TRANSITIONS : DeliveryStatus → List DeliveryStatus
  | .ASSIGNED => [.PICKED_UP]
  | .PICKED_UP => [.IN_TRANSIT]
  | .IN_TRANSIT => [.DELIVERED]
  | .DELIVERED => []

/-- Operational errors from `utils/errors.ts` that the claims mention. -/
inductive Err
  | notFound (msg : String)
  | badRequest (msg : String)
deriving DecidableEq, Repr

/-- A menu item; `restaurantId` is the row's `category.restaurantId`
(the category indirection is flattened, the services only read that field). -/
structure MenuItem where
  id : String
  itemName : String
  price : Rat
  isAvailable : Bool
  restaurantId : String
deriving DecidableEq, Repr

structure CartItem where
  id : String
  menuItemId : String
  quantity : Int
  notes : Option String
deriving DecidableEq, Repr

/-- One cart per user (`cart.findUnique({where: {userId}})`). -/
structure Cart where
  userId : String
  items : List CartItem
deriving DecidableEq, Repr

structure OrderItem where
  menuItemId : String
  quantity : Int
  unitPrice : Rat
  totalPrice : Rat
  notes : Option String
deriving DecidableEq, Repr

structure Order where
  id : String
  orderNumber : String
  userId : String
  restaurantId : String
  deliveryAddress : String
  notes : Option String
  subtotal : Rat
  tax : Rat
  deliveryFee : Rat
  totalAmount : Rat
  status : OrderStatus
  items : List OrderItem
deriving DecidableEq, Repr

/-- A delivery row.  The generated primary key is modelled as the numeric
value of the state's id counter (ids are opaque tokens; only their
freshness matters to the services). -/
structure Delivery where
  id : Nat
  orderId : String
  driverId : String
  status : DeliveryStatus
  estimatedTime : Option Int
  pickupTime : Option Nat
  deliveryTime : Option Nat
deriving DecidableEq, Repr

structure Driver where
  id : String
  isAvailable : Bool
  totalDeliveries : Int
deriving DecidableEq, Repr

/-- Value stored under the sync dedup key `order:client:<userId>:<clientId>`. -/
structure SyncMapping where
  orderId : String
  orderNumber : String
deriving DecidableEq, Repr

structure OrderItemInput where
  menuItemId : String
  quantity : Int
  notes : Option String
deriving DecidableEq, Repr

/-- Body of `createOrder`'s `data` argument. -/
structure CreateOrderData where
  restaurantId : String
  deliveryAddress : String
  notes : Option String
  items : Option (List OrderItemInput)
deriving DecidableEq, Repr

/-- A queued / offline-sync order request (`QueuedOrder` in `queue.service.ts`);
`createdAt` is the client timestamp in epoch milliseconds. -/
structure QueuedOrder where
  clientId : String
  userId : String
  restaurantId : String
  deliveryAddress : String
  notes : Option String
  items : List OrderItemInput
  createdAt : Nat
deriving DecidableEq, Repr

/-- Per-item result of queue processing / offline sync (`QueueResult`). -/
structure QueueResult where
  clientId : String
  success : Bool
  orderId : Option String
  orderNumber : Option String
  error : Option String
deriving DecidableEq, Repr

/-- The whole persistent state: relational rows plus the redis keys the
services use (dedup mapping, queue list, in-flight marker) and the
in-memory `isProcessing` flag.  `nextId` drives generated identifiers,
`now` is the clock read by `new Date()`. -/
structure St where
  restaurants : List String
  menuItems : List MenuItem
  carts : List Cart
  orders : List Order
  deliveries : List Delivery
  drivers : List Driver
  kv : List (String × SyncMapping)
  queue : List QueuedOrder
  processing : Option QueuedOrder
  isProcessing : Bool
  nextId : Nat
  now : Nat
deriving DecidableEq, Repr

/-- Generated identifiers, modelled by the state counter (the source uses
timestamp + randomness; only freshness is observable). -/
def genId (tag : String) (n : Nat) : String := tag ++ "-" ++ toString n

/-- `generateOrderNumber` (`ORD-<base36 timestamp>-<random>`), modelled by the
counter. -/
def generateOrderNumber (n : Nat) : String := "ORD-" ++ toString n

def findMenuItem (id : String) (s : St) : Option MenuItem :=
  s.menuItems.find? (fun m => m.id == id)

def findCart (userId : String) (s : St) : Option Cart :=
  s.carts.find? (fun c => c.userId == userId)

def findOrder (orderId : String) (s : St) : Option Order :=
  s.orders.find? (fun o => o.id == orderId)

def findDelivery (deliveryId : Nat) (s : St) : Option Delivery :=
  s.deliveries.find? (fun d => d.id == deliveryId)

def findDriver (driverId : String) (s : St) : Option Driver :=
  s.drivers.find? (fun d => d.id == driverId)

def kvLookup (key : String) (kv : List (String × SyncMapping)) : Option SyncMapping :=
  (kv.find? (fun p => p.1 == key)).map (·.2)

def kvGet (key : String) (s : St) : Option SyncMapping :=
  kvLookup key s.kv

-- ==================== ORDER SERVICE ====================

/-- The explicit-items loop of `createOrder` (`data.items` path): verify each
menu item exists, is available and belongs to the restaurant, and snapshot
`unitPrice`/`totalPrice`. -/
def buildItemsFromInputs (restaurantId : String) (inputs : List OrderItemInput)
    (s : St) : Except Err (List OrderItem) :=
  match inputs with
  | [] => .ok []
  | item :: rest =>
    match findMenuItem item.menuItemId s with
    | none => .error (.notFound ("Menu item " ++ item.menuItemId ++ " not found"))
    | some menuItem =>
      if !menuItem.isAvailable then
        .error (.badRequest (menuItem.itemName ++ " is not available"))
      else if menuItem.restaurantId != restaurantId then
        .error (.badRequest (menuItem.itemName ++ " does not belong to this restaurant"))
      else
        match buildItemsFromInputs restaurantId rest s with
        | .error e => .error e
        | .ok tail =>
          .ok ({ menuItemId := item.menuItemId
                 quantity := item.quantity
                 unitPrice := menuItem.price
                 totalPrice := menuItem.price * item.quantity
                 notes := item.notes } :: tail)

/-- The cart-sourced loop of `createOrder`: verify each cart line's menu item
belongs to the restaurant and is still available. -/
def buildItemsFromCart (restaurantId : String) (cartItems : List CartItem)
    (s : St) : Except Err (List OrderItem) :=
  match cartItems with
  | [] => .ok []
  | item :: rest =>
    match findMenuItem item.menuItemId s with
    | none => .error (.notFound "Menu item not found")
    | some menuItem =>
      if menuItem.restaurantId != restaurantId then
        .error (.badRequest "All items must be from the same restaurant")
      else if !menuItem.isAvailable then
        .error (.badRequest (menuItem.itemName ++ " is no longer available"))
      else
        match buildItemsFromCart restaurantId rest s with
        | .error e => .error e
        | .ok tail =>
          .ok ({ menuItemId := item.menuItemId
                 quantity := item.quantity
                 unitPrice := menuItem.price
                 totalPrice := menuItem.price * item.quantity
                 notes := item.notes } :: tail)

/-- `data.items && data.items.length > 0` — whether the explicit-items path
is taken. -/
def usesProvidedItems (items : Option (List OrderItemInput)) : Bool :=
  match items with
  | some l => !l.isEmpty
  | none => false

/-- `cartItem.deleteMany({where: {cartId: cart.id}})` for the user's cart. -/
def clearCartItems (userId : String) (carts : List Cart) : List Cart :=
  carts.map (fun c => if c.userId == userId then { c with items := [] } else c)

/-- The `orderItems` computation of `createOrder`: explicit-items path when
`data.items` is present and non-empty, cart path otherwise. -/
def sourceOrderItems (userId : String) (data : CreateOrderData) (s : St) :
    Except Err (List OrderItem) :=
  if usesProvidedItems data.items then
    buildItemsFromInputs data.restaurantId (data.items.getD []) s
  else
    match findCart userId s with
    | none => .error (.badRequest "Cart is empty")
    | some cart =>
      if cart.items.isEmpty then .error (.badRequest "Cart is empty")
      else buildItemsFromCart data.restaurantId cart.items s

/-- `OrderService.createOrder`. -/
def createOrder (userId : String) (data : CreateOrderData) (s : St) :
    Except Err (Order × St) :=
  if !s.restaurants.contains data.restaurantId then
    .error (.notFound "Restaurant not found")
  else
    match sourceOrderItems userId data s with
    | .error e => .error e
    | .ok orderItems =>
      let subtotal := orderItems.foldl (fun sum item => sum + item.totalPrice) 0
      let tax := subtotal * (1 / 10)
      let deliveryFee : Rat := 5
      let totalAmount := subtotal + tax + deliveryFee
      let newOrder : Order :=
        { id := genId "order" s.nextId
          orderNumber := generateOrderNumber s.nextId
          userId := userId
          restaurantId := data.restaurantId
          deliveryAddress := data.deliveryAddress
          notes := data.notes
          subtotal := subtotal
          tax := tax
          deliveryFee := deliveryFee
          totalAmount := totalAmount
          status := .PENDING
          items := orderItems }
      let carts' :=
        if !usesProvidedItems data.items then clearCartItems userId s.carts
        else s.carts
      .ok (newOrder,
           { s with orders := s.orders ++ [newOrder]
                    carts := carts'
                    nextId := s.nextId + 1 })

/-- `OrderService.updateOrderStatus`. -/
def updateOrderStatus (orderId : String) (newStatus : OrderStatus) (s : St) :
    Except Err (Order × St) :=
  match findOrder orderId s with
  | none => .error (.notFound "Order not found")
  | some order =>
    if !(STATUS_TRANSITIONS order.status).contains newStatus then
      .error (.badRequest
        ("Cannot transition from " ++ order.status.name ++ " to " ++ newStatus.name))
    else
      .ok ({ order with status := newStatus },
           { s with orders := s.orders.map (fun o =>
               if o.id == orderId then { o with status := newStatus } else o) })

/-- `OrderService.cancelOrder`. -/
def cancelOrder (orderId : String) (userId : String) (s : St) :
    Except Err (Order × St) :=
  match findOrder orderId s with
  | none => .error (.notFound "Order not found")
  | some order =>
    if order.userId != userId then .error (.notFound "Order not found")
    else if !(order.status == .PENDING || order.status == .CONFIRMED) then
      .error (.badRequest "Order cannot be cancelled at this stage")
    else
      updateOrderStatus orderId .CANCELLED s

-- ==================== CART OPERATIONS ====================

/-- `OrderService.addToCart` (state part; the method returns the refreshed
cart view). -/
def addToCart (userId : String) (menuItemId : String) (quantity : Int)
    (notes : Option String) (s : St) : Except Err St :=
  match findMenuItem menuItemId s with
  | none => .error (.notFound "Menu item not found")
  | some menuItem =>
    if !menuItem.isAvailable then
      .error (.badRequest "Menu item is not available")
    else
      let newItem : CartItem :=
        { id := genId "cartitem" s.nextId
          menuItemId := menuItemId
          quantity := quantity
          notes := notes }
      match findCart userId s with
      | none =>
        .ok { s with carts := s.carts ++ [{ userId := userId, items := [newItem] }]
                     nextId := s.nextId + 1 }
      | some cart =>
        match cart.items.find? (fun it => it.menuItemId == menuItemId) with
        | some existing =>
          .ok { s with carts := s.carts.map (fun c =>
            if c.userId == userId then
              { c with items := c.items.map (fun it =>
                  if it.id == existing.id then
                    { it with quantity := existing.quantity + quantity
                              notes := notes.or existing.notes }
                  else it) }
            else c) }
        | none =>
          .ok { s with carts := s.carts.map (fun c =>
                  if c.userId == userId then { c with items := c.items ++ [newItem] }
                  else c)
                       nextId := s.nextId + 1 }

/-- `OrderService.updateCartItem`; a supplied quantity ≤ 0 deletes the row. -/
def updateCartItem (userId : String) (itemId : String) (quantity : Option Int)
    (notes : Option String) (s : St) : Except Err St :=
  match findCart userId s with
  | none => .error (.notFound "Cart not found")
  | some cart =>
    match cart.items.find? (fun it => it.id == itemId) with
    | none => .error (.notFound "Cart item not found")
    | some _ =>
      let deleteRow : St :=
        { s with carts := s.carts.map (fun c =>
            if c.userId == userId then
              { c with items := c.items.filter (fun it => it.id != itemId) }
            else c) }
      let updateRow : St :=
        { s with carts := s.carts.map (fun c =>
            if c.userId == userId then
              { c with items := c.items.map (fun it =>
                  if it.id == itemId then
                    { it with quantity := quantity.getD it.quantity
                              notes := notes.or it.notes }
                  else it) }
            else c) }
      match quantity with
      | some q => if q ≤ 0 then .ok deleteRow else .ok updateRow
      | none => .ok updateRow

/-- `OrderService.removeFromCart`. -/
def removeFromCart (userId : String) (itemId : String) (s : St) : Except Err St :=
  match findCart userId s with
  | none => .error (.notFound "Cart not found")
  | some cart =>
    match cart.items.find? (fun it => it.id == itemId) with
    | none => .error (.notFound "Cart item not found")
    | some _ =>
      .ok { s with carts := s.carts.map (fun c =>
              if c.userId == userId then
                { c with items := c.items.filter (fun it => it.id != itemId) }
              else c) }

/-- `OrderService.clearCart` (never fails). -/
def clearCart (userId : String) (s : St) : St :=
  match findCart userId s with
  | none => s
  | some _ => { s with carts := clearCartItems userId s.carts }

-- ==================== DELIVERY SERVICE ====================

def hasDeliveryForOrder (orderId : String) (s : St) : Bool :=
  s.deliveries.any (fun d => d.orderId == orderId)

/-- `DeliveryService.assignDriver`. -/
def assignDriver (orderId : String) (driverId : String)
    (estimatedTime : Option Int) (s : St) : Except Err (Delivery × St) :=
  match findOrder orderId s with
  | none => .error (.notFound "Order not found")
  | some order =>
    if order.status != .PREPARING && order.status != .CONFIRMED then
      .error (.badRequest "Order is not ready for delivery assignment")
    else if hasDeliveryForOrder orderId s then
      .error (.badRequest "Order already has a delivery assigned")
    else
      match findDriver driverId s with
      | none => .error (.notFound "Driver not found")
      | some driver =>
        if !driver.isAvailable then
          .error (.badRequest "Driver is not available")
        else
          let newDelivery : Delivery :=
            { id := s.nextId
              orderId := orderId
              driverId := driverId
              status := .ASSIGNED
              estimatedTime := estimatedTime
              pickupTime := none
              deliveryTime := none }
          let orders' :=
            if order.status == .PREPARING then
              s.orders.map (fun o =>
                if o.id == orderId then { o with status := .ON_THE_WAY } else o)
            else s.orders
          .ok (newDelivery,
            { s with deliveries := s.deliveries ++ [newDelivery]
                     orders := orders'
                     drivers := s.drivers.map (fun d =>
                       if d.id == driverId then { d with isAvailable := false } else d)
                     nextId := s.nextId + 1 })

/-- `DeliveryService.updateDeliveryStatus`.  On reaching `DELIVERED` the same
transaction writes the parent order's status and flips/increments the driver. -/
def updateDeliveryStatus (deliveryId : Nat) (newStatus : DeliveryStatus)
    (s : St) : Except Err (Delivery × St) :=
  match findDelivery deliveryId s with
  | none => .error (.notFound "Delivery not found")
  | some delivery =>
    if !(DELIVERY_STATUS_TRANSITIONS delivery.status).contains newStatus then
      .error (.badRequest
        ("Cannot transition from " ++ delivery.status.name ++ " to " ++ newStatus.name))
    else
      let updateRow : Delivery → Delivery := fun d =>
        { d with status := newStatus
                 pickupTime := if newStatus == .PICKED_UP then some s.now else d.pickupTime
                 deliveryTime := if newStatus == .DELIVERED then some s.now else d.deliveryTime }
      let deliveries' := s.deliveries.map (fun d =>
        if d.id == deliveryId then updateRow d else d)
      let orders' :=
        if newStatus == .DELIVERED then
          s.orders.map (fun o =>
            if o.id == delivery.orderId then { o with status := .DELIVERED } else o)
        else s.orders
      let drivers' :=
        if newStatus == .DELIVERED then
          s.drivers.map (fun d =>
            if d.id == delivery.driverId then
              { d with isAvailable := true, totalDeliveries := d.totalDeliveries + 1 }
            else d)
        else s.drivers
      .ok (updateRow delivery,
           { s with deliveries := deliveries', orders := orders', drivers := drivers' })

/-- `status: { in: ['ASSIGNED', 'PICKED_UP', 'IN_TRANSIT'] }`. -/
def isActiveDeliveryStatus (st : DeliveryStatus) : Bool :=
  st == .ASSIGNED || st == .PICKED_UP || st == .IN_TRANSIT

def hasActiveDelivery (driverId : String) (s : St) : Bool :=
  s.deliveries.any (fun d => d.driverId == driverId && isActiveDeliveryStatus d.status)

/-- `DeliveryService.updateDriverAvailability`; only going offline is checked
against an active delivery. -/
def updateDriverAvailability (driverId : String) (isAvailable : Bool) (s : St) :
    Except Err (Driver × St) :=
  match findDriver driverId s with
  | none => .error (.notFound "Driver not found")
  | some driver =>
    if !isAvailable && hasActiveDelivery driverId s then
      .error (.badRequest "Cannot go offline with active delivery")
    else
      .ok ({ driver with isAvailable := isAvailable },
        { s with drivers := s.drivers.map (fun d =>
            if d.id == driverId then { d with isAvailable := isAvailable } else d) })

-- ==================== QUEUE SERVICE ====================

def errMessage : Err → String
  | .notFound m => m
  | .badRequest m => m

def queuedToData (q : QueuedOrder) : CreateOrderData :=
  { restaurantId := q.restaurantId
    deliveryAddress := q.deliveryAddress
    notes := q.notes
    items := some q.items }

/-- `QueueService.enqueueOrders`: tail-append each request (stamped with the
caller's `userId`) onto the queue list. -/
def enqueueOrders (userId : String) (orders : List QueuedOrder) (s : St) : St :=
  { s with queue := s.queue ++ orders.map (fun o => { o with userId := userId }) }

/-- One iteration of the drain loop body: set the in-flight marker, call
`createOrder`, record the result, and clear the marker in the `finally`. -/
def processItem (item : QueuedOrder) (s : St) : QueueResult × St :=
  let s1 := { s with processing := some item }
  match createOrder item.userId (queuedToData item) s1 with
  | .ok (o, s2) =>
    ({ clientId := item.clientId, success := true, orderId := some o.id
       orderNumber := some o.orderNumber, error := none },
     { s2 with processing := none })
  | .error e =>
    ({ clientId := item.clientId, success := false, orderId := none
       orderNumber := none, error := some (errMessage e) },
     { s1 with processing := none })

/-- The `while (true)` drain loop, with fuel (each iteration pops the head, so
`s.queue.length` fuel empties the queue). -/
def drainLoop : Nat → St → List QueueResult × St
  | 0, s => ([], s)
  | fuel + 1, s =>
    match s.queue with
    | [] => ([], s)
    | item :: rest =>
      let step := processItem item { s with queue := rest }
      let restRun := drainLoop fuel step.2
      (step.1 :: restRun.1, restRun.2)

/-- `QueueService.processQueue`. -/
def processQueue (s : St) : List QueueResult × St :=
  if s.isProcessing then ([], s)
  else
    let run := drainLoop s.queue.length { s with isProcessing := true }
    (run.1, { run.2 with isProcessing := false })

-- ==================== OFFLINE SYNC ====================

/-- One element of the `orders` array accepted by `syncOrders`. -/
structure SyncOrderInput where
  clientId : String
  restaurantId : String
  deliveryAddress : String
  notes : Option String
  items : List OrderItemInput
  createdAt : Nat
deriving DecidableEq, Repr

def syncKey (userId : String) (clientId : String) : String :=
  "order:client:" ++ userId ++ ":" ++ clientId

def syncData (o : SyncOrderInput) : CreateOrderData :=
  { restaurantId := o.restaurantId
    deliveryAddress := o.deliveryAddress
    notes := o.notes
    items := some o.items }

/-- Body of the per-request loop in `syncOrders`: dedup lookup, `createOrder`,
persist the mapping with 24h expiry on success, record a failure otherwise. -/
def processSyncItem (userId : String) (order : SyncOrderInput) (s : St) :
    QueueResult × St :=
  let key := syncKey userId order.clientId
  match kvGet key s with
  | some existing =>
    ({ clientId := order.clientId, success := true
       orderId := some existing.orderId
       orderNumber := some existing.orderNumber, error := none }, s)
  | none =>
    match createOrder userId (syncData order) s with
    | .ok (o, s1) =>
      ({ clientId := order.clientId, success := true, orderId := some o.id
         orderNumber := some o.orderNumber, error := none },
       { s1 with kv := (key, { orderId := o.id, orderNumber := o.orderNumber }) :: s1.kv })
    | .error e =>
      ({ clientId := order.clientId, success := false, orderId := none
         orderNumber := none, error := some (errMessage e) }, s)

def processSyncItems (userId : String) :
    List SyncOrderInput → St → List QueueResult × St
  | [], s => ([], s)
  | o :: rest, s =>
    let step := processSyncItem userId o s
    let restRun := processSyncItems userId rest step.2
    (step.1 :: restRun.1, restRun.2)

/-- Stable insertion keeping equal timestamps in submission order. -/
def insertByCreatedAt (x : SyncOrderInput) :
    List SyncOrderInput → List SyncOrderInput
  | [] => [x]
  | y :: ys =>
    if x.createdAt ≤ y.createdAt then x :: y :: ys else y :: insertByCreatedAt x ys

/-- `[...orders].sort((a, b) => a.createdAt - b.createdAt)`. -/
def sortByCreatedAt : List SyncOrderInput → List SyncOrderInput
  | [] => []
  | x :: xs => insertByCreatedAt x (sortByCreatedAt xs)

/-- `QueueService.syncOrders`: sort by client timestamp, then replay each
request with dedup. -/
def syncOrders (userId : String) (orders : List SyncOrderInput) (s : St) :
    List QueueResult × St :=
  processSyncItems userId (sortByCreatedAt orders) s

-- ==================== OPERATION ALPHABETS ====================

/-- The order/delivery operations quantified over by the lifecycle claims. -/
inductive Op
  | createOrder (userId : String) (data : CreateOrderData)
  | updateOrderStatus (orderId : String) (newStatus : OrderStatus)
  | cancelOrder (orderId : String) (userId : String)
  | assignDriver (orderId : String) (driverId : String) (estimatedTime : Option Int)
  | updateDeliveryStatus (deliveryId : Nat) (newStatus : DeliveryStatus)
  | updateDriverAvailability (driverId : String) (isAvailable : Bool)
deriving DecidableEq, Repr

/-- Run one operation; a thrown error aborts the transaction and leaves the
state unchanged. -/
def applyOp (op : Op) (s : St) : St :=
  match op with
  | .createOrder u d =>
    (match createOrder u d s with | .ok p => p.2 | .error _ => s)
  | .updateOrderStatus oid ns =>
    (match updateOrderStatus oid ns s with | .ok p => p.2 | .error _ => s)
  | .cancelOrder oid u =>
    (match cancelOrder oid u s with | .ok p => p.2 | .error _ => s)
  | .assignDriver oid did et =>
    (match assignDriver oid did et s with | .ok p => p.2 | .error _ => s)
  | .updateDeliveryStatus did ns =>
    (match updateDeliveryStatus did ns s with | .ok p => p.2 | .error _ => s)
  | .updateDriverAvailability did b =>
    (match updateDriverAvailability did b s with | .ok p => p.2 | .error _ => s)

def runOps (ops : List Op) (s : St) : St :=
  ops.foldl (fun t op => applyOp op t) s

/-- The cart operations quantified over by the cart-invariant claim. -/
inductive CartOp
  | add (userId : String) (menuItemId : String) (quantity : Int) (notes : Option String)
  | update (userId : String) (itemId : String) (quantity : Option Int) (notes : Option String)
  | remove (userId : String) (itemId : String)
  | clear (userId : String)
deriving DecidableEq, Repr

def applyCartOp (op : CartOp) (s : St) : St :=
  match op with
  | .add u m q n => (match addToCart u m q n s with | .ok s' => s' | .error _ => s)
  | .update u i q n => (match updateCartItem u i q n s with | .ok s' => s' | .error _ => s)
  | .remove u i => (match removeFromCart u i s with | .ok s' => s' | .error _ => s)
  | .clear u => clearCart u s

def runCartOps (ops : List CartOp) (s : St) : St :=
  ops.foldl (fun t op => applyCartOp op t) s

-- ==================== HELPER LEMMAS ====================

theorem buildItemsFromInputs_line_total (rid : String) (s : St) :
    ∀ (inputs : List OrderItemInput) (items : List OrderItem),
      buildItemsFromInputs rid inputs s = .ok items →
      ∀ it ∈ items, it.totalPrice = it.unitPrice * it.quantity := by
  intro inputs
  induction inputs with
  | nil =>
    intro items h
    rw [buildItemsFromInputs] at h
    simp only [Except.ok.injEq] at h
    simp [← h]
  | cons a rest ih =>
    intro items h
    rw [buildItemsFromInputs] at h
    cases hf : findMenuItem a.menuItemId s with
    | none => rw [hf] at h; simp at h
    | some mi =>
      rw [hf] at h
      simp only [] at h
      split at h
      · simp at h
      · split at h
        · simp at h
        · cases hr : buildItemsFromInputs rid rest s with
          | error e => rw [hr] at h; simp at h
          | ok tail =>
            rw [hr] at h
            simp only [Except.ok.injEq] at h
            intro it hit
            rw [← h] at hit
            rcases List.mem_cons.mp hit with hhead | htail
            · subst hhead; rfl
            · exact ih tail hr it htail

theorem buildItemsFromCart_line_total (rid : String) (s : St) :
    ∀ (cartItems : List CartItem) (items : List OrderItem),
      buildItemsFromCart rid cartItems s = .ok items →
      ∀ it ∈ items, it.totalPrice = it.unitPrice * it.quantity := by
  intro cartItems
  induction cartItems with
  | nil =>
    intro items h
    rw [buildItemsFromCart] at h
    simp only [Except.ok.injEq] at h
    simp [← h]
  | cons a rest ih =>
    intro items h
    rw [buildItemsFromCart] at h
    cases hf : findMenuItem a.menuItemId s with
    | none => rw [hf] at h; simp at h
    | some mi =>
      rw [hf] at h
      simp only [] at h
      split at h
      · simp at h
      · split at h
        · simp at h
        · cases hr : buildItemsFromCart rid rest s with
          | error e => rw [hr] at h; simp at h
          | ok tail =>
            rw [hr] at h
            simp only [Except.ok.injEq] at h
            intro it hit
            rw [← h] at hit
            rcases List.mem_cons.mp hit with hhead | htail
            · subst hhead; rfl
            · exact ih tail hr it htail

theorem sourceOrderItems_line_total (userId : String) (data : CreateOrderData)
    (s : St) (items : List OrderItem) (h : sourceOrderItems userId data s = .ok items) :
    ∀ it ∈ items, it.totalPrice = it.unitPrice * it.quantity := by
  rw [sourceOrderItems] at h
  split at h
  · exact buildItemsFromInputs_line_total _ _ _ _ h
  · cases hc : findCart userId s with
    | none => rw [hc] at h; simp at h
    | some cart =>
      rw [hc] at h
      simp only [] at h
      split at h
      · simp at h
      · exact buildItemsFromCart_line_total _ _ _ _ h

theorem foldl_totalPrice (l : List OrderItem) (r : Rat) :
    l.foldl (fun sum item => sum + item.totalPrice) r
      = r + (l.map (fun it => it.totalPrice)).sum := by
  induction l generalizing r with
  | nil => simp
  | cons a t ih => simp [ih, add_assoc]

-- ==================== CLAIM THEOREMS ====================

/-- C5: `updateOrderStatus` fails `NotFound` when the order is missing; fails
`BadRequest` with message `Cannot transition from <current> to <new>` whenever
`newStatus` is not a direct successor in the transition table (same-state
no-ops included — no state lists itself as a successor); otherwise it writes
exactly the status field of that order, leaving every other field and every
other state component unchanged. -/
theorem C5_updateOrderStatus_contract (orderId : String) (newStatus : OrderStatus)
    (s : St) :
    (findOrder orderId s = none →
        updateOrderStatus orderId newStatus s = .error (.notFound "Order not found"))
    ∧ (∀ order, findOrder orderId s = some order →
        (((STATUS_TRANSITIONS order.status).contains newStatus = false →
            updateOrderStatus orderId newStatus s = .error (.badRequest
              ("Cannot transition from " ++ order.status.name ++ " to " ++ newStatus.name)))
         ∧ ((STATUS_TRANSITIONS order.status).contains newStatus = true →
            updateOrderStatus orderId newStatus s =
              .ok ({ order with status := newStatus },
                   { s with orders := s.orders.map (fun o =>
                       if o.id == orderId then { o with status := newStatus } else o) }))))
    ∧ (∀ st : OrderStatus, (STATUS_TRANSITIONS st).contains st = false) := by
  refine ⟨?_, ?_, fun st => by cases st <;> rfl⟩
  · intro h
    simp [updateOrderStatus, h]
  · intro order h
    constructor
    · intro hno
      have hno' : newStatus ∉ STATUS_TRANSITIONS order.status := by simpa using hno
      simp [updateOrderStatus, h, hno']
    · intro hyes
      have hyes' : newStatus ∈ STATUS_TRANSITIONS order.status := by simpa using hyes
      simp [updateOrderStatus, h, hyes']

def c5Order : Order :=
  { id := "o1", orderNumber := "ORD-1", userId := "u1", restaurantId := "r1"
    deliveryAddress := "10 Main Street", notes := none, subtotal := 0, tax := 0
    deliveryFee := 5, totalAmount := 5, status := .PENDING, items := [] }

def c5S : St :=
  { restaurants := ["r1"], menuItems := [], carts := [], orders := [c5Order]
    deliveries := [], drivers := [], kv := [], queue := [], processing := none
    isProcessing := false, nextId := 2, now := 0 }

theorem C5_updateOrderStatus_contract_witness :
    updateOrderStatus "o1" OrderStatus.PREPARING c5S =
      .error (.badRequest "Cannot transition from PENDING to PREPARING") := by
  have h := ((C5_updateOrderStatus_contract "o1" .PREPARING c5S).2.1 c5Order
    (by rfl)).1 (by rfl)
  exact h.trans (by rfl)

def c4S : St :=
  { restaurants := ["r1"]
    menuItems := [{ id := "mX", itemName := "Dish X", price := (8.99 : Rat)
                    isAvailable := true, restaurantId := "r1" }]
    carts := [], orders := [], deliveries := [], drivers := [], kv := []
    queue := [], processing := none, isProcessing := false, nextId := 0, now := 0 }

def c4Data : CreateOrderData :=
  { restaurantId := "r1", deliveryAddress := "10 Main Street", notes := none
    items := some [{ menuItemId := "mX", quantity := 2, notes := none }] }

/-- The order that `createOrder "u1" c4Data c4S` produces. -/
def c4Order : Order :=
  { id := "order-0", orderNumber := "ORD-0", userId := "u1", restaurantId := "r1"
    deliveryAddress := "10 Main Street", notes := none
    subtotal := (17.98 : Rat), tax := (1.798 : Rat), deliveryFee := 5
    totalAmount := (24.778 : Rat), status := .PENDING
    items := [{ menuItemId := "mX", quantity := 2, unitPrice := (8.99 : Rat)
                totalPrice := (17.98 : Rat), notes := none }] }

def c4S' : St :=
  { c4S with orders := [c4Order], nextId := 1 }

/-- C4: every order created by `createOrder` has `subtotal` equal to the sum of
its items' `totalPrice`, each `totalPrice` equal to the snapshotted unit price
times the quantity, `tax` equal to 10% of `subtotal`, `deliveryFee` fixed at
5.00, and `totalAmount = subtotal + tax + deliveryFee`; the concrete scenario
(one line of quantity 2 at unit price 8.99) yields subtotal 17.98, tax 1.798,
deliveryFee 5.00, totalAmount 24.778. -/
theorem C4_createOrder_totals (userId : String) (data : CreateOrderData) (s : St)
    (order : Order) (s' : St) :
    (createOrder userId data s = .ok (order, s') →
      order.subtotal = (order.items.map (fun it => it.totalPrice)).sum
      ∧ (∀ it ∈ order.items, it.totalPrice = it.unitPrice * it.quantity)
      ∧ order.tax = order.subtotal * (1 / 10)
      ∧ order.deliveryFee = 5
      ∧ order.totalAmount = order.subtotal + order.tax + order.deliveryFee)
    ∧ (∃ pr : Order × St, createOrder "u1" c4Data c4S = .ok pr
        ∧ pr.1.subtotal = (17.98 : Rat) ∧ pr.1.tax = (1.798 : Rat)
        ∧ pr.1.deliveryFee = (5 : Rat) ∧ pr.1.totalAmount = (24.778 : Rat)) := by
  constructor
  · intro h
    rw [createOrder] at h
    split at h
    · simp at h
    · cases hsi : sourceOrderItems userId data s with
      | error e => rw [hsi] at h; simp at h
      | ok orderItems =>
        rw [hsi] at h
        simp only [Except.ok.injEq, Prod.mk.injEq] at h
        obtain ⟨ho, _⟩ := h
        subst ho
        refine ⟨?_, ?_, rfl, rfl, rfl⟩
        · simpa using foldl_totalPrice orderItems 0
        · exact sourceOrderItems_line_total userId data s orderItems hsi
  · exact ⟨(c4Order, c4S'), by with_unfolding_all rfl, rfl, rfl, rfl, rfl⟩

theorem C4_createOrder_totals_witness :
    c4Order.subtotal = (c4Order.items.map (fun it => it.totalPrice)).sum
    ∧ (∀ it ∈ c4Order.items, it.totalPrice = it.unitPrice * it.quantity)
    ∧ c4Order.tax = c4Order.subtotal * (1 / 10)
    ∧ c4Order.deliveryFee = 5
    ∧ c4Order.totalAmount = c4Order.subtotal + c4Order.tax + c4Order.deliveryFee :=
  (C4_createOrder_totals "u1" c4Data c4S c4Order c4S').1 (by with_unfolding_all rfl)

theorem find_clearCartItems_empty (userId : String) (carts : List Cart) :
    ∀ cart, (clearCartItems userId carts).find? (fun c => c.userId == userId) = some cart →
      cart.items = [] := by
  induction carts with
  | nil => intro cart h; simp [clearCartItems] at h
  | cons a rest ih =>
    intro cart h
    rw [clearCartItems, List.map_cons] at h
    by_cases ha : (a.userId == userId) = true
    · rw [if_pos ha] at h
      rw [@List.find?_cons_of_pos Cart (fun c => c.userId == userId)
        { userId := a.userId, items := [] } _ ha] at h
      simp only [Option.some.injEq] at h
      rw [← h]
    · rw [if_neg ha] at h
      rw [@List.find?_cons_of_neg Cart (fun c => c.userId == userId) a _
        (by simpa using ha)] at h
      exact ih cart h

/-- C10: `createOrder` with `items` present but empty behaves exactly like the
omitted-`items` call: it sources from the cart, fails `BadRequest`
("Cart is empty") when the cart is missing or empty (given the restaurant
exists), and on success the creation transaction leaves the customer's cart
cleared. -/
theorem C10_empty_items_like_omitted (userId : String) (rid : String)
    (addr : String) (notes : Option String) (s : St) :
    (createOrder userId
        { restaurantId := rid, deliveryAddress := addr, notes := notes, items := some [] } s
      = createOrder userId
        { restaurantId := rid, deliveryAddress := addr, notes := notes, items := none } s)
    ∧ (s.restaurants.contains rid = true →
        (∀ cart, findCart userId s = some cart → cart.items = []) →
        createOrder userId
            { restaurantId := rid, deliveryAddress := addr, notes := notes, items := some [] } s
          = .error (.badRequest "Cart is empty"))
    ∧ (∀ order s', createOrder userId
          { restaurantId := rid, deliveryAddress := addr, notes := notes, items := some [] } s
            = .ok (order, s') →
        ∀ cart, findCart userId s' = some cart → cart.items = []) := by
  refine ⟨rfl, ?_, ?_⟩
  · intro hres hcartEmpty
    have hres' : rid ∈ s.restaurants := by simpa using hres
    cases hc : findCart userId s with
    | none => simp [createOrder, sourceOrderItems, usesProvidedItems, hres', hc]
    | some cart =>
      have he : cart.items = [] := hcartEmpty cart hc
      simp [createOrder, sourceOrderItems, usesProvidedItems, hres', hc, he]
  · intro order s' h
    rw [createOrder] at h
    split at h
    · simp at h
    · cases hsi : sourceOrderItems userId
        { restaurantId := rid, deliveryAddress := addr, notes := notes, items := some [] } s with
      | error e => rw [hsi] at h; simp at h
      | ok orderItems =>
        rw [hsi] at h
        simp only [Except.ok.injEq, Prod.mk.injEq] at h
        obtain ⟨_, hs⟩ := h
        intro cart hfind
        rw [← hs] at hfind
        exact find_clearCartItems_empty userId s.carts cart hfind

def c10S : St :=
  { restaurants := ["r1"], menuItems := [], carts := [], orders := []
    deliveries := [], drivers := [], kv := [], queue := [], processing := none
    isProcessing := false, nextId := 0, now := 0 }

theorem C10_empty_items_like_omitted_witness :
    createOrder "u1"
        { restaurantId := "r1", deliveryAddress := "10 Main Street", notes := none
          items := some [] } c10S
      = .error (.badRequest "Cart is empty") :=
  (C10_empty_items_like_omitted "u1" "r1" "10 Main Street" none c10S).2.1
    (by rfl) (by intro cart h; simp [findCart, c10S] at h)

/-- C7: `assignDriver` succeeds exactly when the order exists in `CONFIRMED`
or `PREPARING`, carries no delivery yet, and the named driver exists and is
available; on success one transaction appends a Delivery in state `ASSIGNED`,
advances a `PREPARING` order to `ON_THE_WAY` while leaving a `CONFIRMED`
order's status untouched, and flips the driver to unavailable; it fails
`NotFound` for a missing order or driver and `BadRequest` for a wrong order
stage, an already-assigned order, or an unavailable driver. -/
theorem C7_assignDriver_contract (orderId : String) (driverId : String)
    (et : Option Int) (s : St) :
    (findOrder orderId s = none →
        assignDriver orderId driverId et s = .error (.notFound "Order not found"))
    ∧ (∀ order, findOrder orderId s = some order →
        ((order.status ≠ .PREPARING ∧ order.status ≠ .CONFIRMED →
            assignDriver orderId driverId et s =
              .error (.badRequest "Order is not ready for delivery assignment"))
         ∧ ((order.status = .PREPARING ∨ order.status = .CONFIRMED) →
            ((hasDeliveryForOrder orderId s = true →
                assignDriver orderId driverId et s =
                  .error (.badRequest "Order already has a delivery assigned"))
             ∧ (hasDeliveryForOrder orderId s = false →
                ((findDriver driverId s = none →
                    assignDriver orderId driverId et s = .error (.notFound "Driver not found"))
                 ∧ (∀ driver, findDriver driverId s = some driver →
                     ((driver.isAvailable = false →
                         assignDriver orderId driverId et s =
                           .error (.badRequest "Driver is not available"))
                      ∧ (driver.isAvailable = true →
                         ∃ d' s', assignDriver orderId driverId et s = .ok (d', s')
                           ∧ d'.status = .ASSIGNED ∧ d'.orderId = orderId
                           ∧ d'.driverId = driverId ∧ d'.estimatedTime = et
                           ∧ s'.deliveries = s.deliveries ++ [d']
                           ∧ (order.status = .PREPARING →
                               s'.orders = s.orders.map (fun o =>
                                 if o.id == orderId then { o with status := .ON_THE_WAY } else o))
                           ∧ (order.status = .CONFIRMED → s'.orders = s.orders)
                           ∧ s'.drivers = s.drivers.map (fun d =>
                               if d.id == driverId then { d with isAvailable := false } else d)
                           ∧ s'.carts = s.carts ∧ s'.kv = s.kv
                           ∧ s'.queue = s.queue))))))))) := by
  constructor
  · intro h
    simp [assignDriver, h]
  · intro order h
    constructor
    · rintro ⟨h1, h2⟩
      have hcond : (order.status != .PREPARING && order.status != .CONFIRMED) = true := by
        simp [h1, h2]
      simp [assignDriver, h, hcond]
    · intro hstage
      have hcond : (order.status != .PREPARING && order.status != .CONFIRMED) = false := by
        rcases hstage with hp | hc
        · simp [hp]
        · simp [hc]
      refine ⟨?_, ?_⟩
      · intro hdel
        simp [assignDriver, h, hcond, hdel]
      · intro hdel
        refine ⟨?_, ?_⟩
        · intro hdrv
          simp [assignDriver, h, hcond, hdel, hdrv]
        · intro driver hdrv
          refine ⟨?_, ?_⟩
          · intro hav
            simp [assignDriver, h, hcond, hdel, hdrv, hav]
          · intro hav
            simp only [assignDriver, h, hcond, hdel, hdrv, hav, Bool.false_eq_true,
              if_false, Bool.not_true, Except.ok.injEq, Prod.mk.injEq]
            refine ⟨_, _, ⟨rfl, rfl⟩, rfl, rfl, rfl, rfl, rfl, ?_, ?_, rfl, rfl, rfl, rfl⟩
            · intro hp
              simp [hp]
            · intro hc
              simp [hc]

def c7Order : Order :=
  { id := "o1", orderNumber := "ORD-1", userId := "u1", restaurantId := "r1"
    deliveryAddress := "10 Main Street", notes := none, subtotal := 20, tax := 2
    deliveryFee := 5, totalAmount := 27, status := .PREPARING, items := [] }

def c7S : St :=
  { restaurants := ["r1"], menuItems := [], carts := [], orders := [c7Order]
    deliveries := [], drivers := [{ id := "d1", isAvailable := true, totalDeliveries := 0 }]
    kv := [], queue := [], processing := none, isProcessing := false
    nextId := 5, now := 0 }

theorem C7_assignDriver_contract_witness :
    ∃ d' s', assignDriver "o1" "d1" none c7S = .ok (d', s')
      ∧ d'.status = .ASSIGNED ∧ d'.orderId = "o1"
      ∧ d'.driverId = "d1" ∧ d'.estimatedTime = none
      ∧ s'.deliveries = c7S.deliveries ++ [d']
      ∧ (c7Order.status = .PREPARING →
          s'.orders = c7S.orders.map (fun o =>
            if o.id == "o1" then { o with status := .ON_THE_WAY } else o))
      ∧ (c7Order.status = .CONFIRMED → s'.orders = c7S.orders)
      ∧ s'.drivers = c7S.drivers.map (fun d =>
          if d.id == "d1" then { d with isAvailable := false } else d)
      ∧ s'.carts = c7S.carts ∧ s'.kv = c7S.kv
      ∧ s'.queue = c7S.queue :=
  ((((((C7_assignDriver_contract "o1" "d1" none c7S).2 c7Order (by rfl)).2
    (Or.inl rfl)).2 (by rfl)).2 ⟨"d1", true, 0⟩ (by rfl)).2) (by rfl)

-- ==================== C8: CART INVARIANT ====================

/-- Cart well-formedness: one cart per user (Prisma unique on `userId`),
every stored line has quantity ≥ 1, and at most one line per
(cart, menu item) pair. -/
def CartInv (s : St) : Prop :=
  (s.carts.map (fun c => c.userId)).Nodup
  ∧ ∀ cart ∈ s.carts,
      (∀ it ∈ cart.items, 1 ≤ it.quantity)
      ∧ (cart.items.map (fun it => it.menuItemId)).Nodup

/-- The request validator (`addToCartSchema`) requires a positive integer
quantity on `addToCart`; the other cart operations are unrestricted. -/
def validCartOp : CartOp → Prop
  | .add _ _ q _ => 1 ≤ q
  | _ => True

theorem map_userId_of_preserving (f : Cart → Cart)
    (hf : ∀ c, (f c).userId = c.userId) (l : List Cart) :
    (l.map f).map (fun c => c.userId) = l.map (fun c => c.userId) := by
  induction l with
  | nil => rfl
  | cons a t ih => simp [hf, ih]

theorem map_menuItemId_of_preserving (g : CartItem → CartItem)
    (hg : ∀ it, (g it).menuItemId = it.menuItemId) (l : List CartItem) :
    (l.map g).map (fun it => it.menuItemId) = l.map (fun it => it.menuItemId) := by
  induction l with
  | nil => rfl
  | cons a t ih => simp [hg, ih]

theorem nodup_menuItemId_filter (p : CartItem → Bool) (l : List CartItem)
    (h : (l.map (fun it => it.menuItemId)).Nodup) :
    ((l.filter p).map (fun it => it.menuItemId)).Nodup :=
  h.sublist ((l.filter_sublist).map (fun it => it.menuItemId))

theorem addToCart_inv (u : String) (m : String) (q : Int) (n : Option String)
    (s s' : St) (hq : 1 ≤ q) (hinv : CartInv s)
    (h : addToCart u m q n s = .ok s') : CartInv s' := by
  obtain ⟨hnu, hitems⟩ := hinv
  rw [addToCart] at h
  cases hmi : findMenuItem m s with
  | none => rw [hmi] at h; simp at h
  | some menuItem =>
    rw [hmi] at h
    simp only [] at h
    split at h
    · simp at h
    · cases hc : findCart u s with
      | none =>
        rw [hc] at h
        simp only [Except.ok.injEq] at h
        subst h
        have hnone : ∀ c ∈ s.carts, ¬(c.userId == u) = true :=
          List.find?_eq_none.mp hc
        constructor
        · simp only [List.map_append, List.map_cons, List.map_nil]
          refine hnu.append (by simp) ?_
          intro x hx
          simp only [List.mem_singleton]
          obtain ⟨c, hcmem, hcx⟩ := List.mem_map.mp hx
          intro hxu
          exact hnone c hcmem (by simp [hcx, hxu])
        · intro cart hcart
          rcases List.mem_append.mp hcart with hold | hnew
          · exact hitems cart hold
          · simp only [List.mem_singleton] at hnew
            subst hnew
            exact ⟨by intro it hit; simp at hit; simp [hit, hq], by simp⟩
      | some cart =>
        rw [hc] at h
        simp only [] at h
        have hcartmem : cart ∈ s.carts := List.mem_of_find?_eq_some hc
        have hcartu : (cart.userId == u) = true := by
          have hx := List.find?_some
            (show s.carts.find? (fun c => c.userId == u) = some cart from hc)
          simpa using hx
        cases hex : cart.items.find? (fun it => it.menuItemId == m) with
        | some existing =>
          rw [hex] at h
          simp only [Except.ok.injEq] at h
          subst h
          have hexmem : existing ∈ cart.items := List.mem_of_find?_eq_some hex
          have hexq : 1 ≤ existing.quantity := (hitems cart hcartmem).1 existing hexmem
          constructor
          · rw [map_userId_of_preserving]
            · exact hnu
            · intro c; split <;> rfl
          · intro c' hc'
            obtain ⟨c, hcmem, hceq⟩ := List.mem_map.mp hc'
            subst hceq
            by_cases hcu : (c.userId == u) = true
            · rw [if_pos hcu]
              constructor
              · intro it' hit'
                obtain ⟨it, hitmem, hiteq⟩ := List.mem_map.mp hit'
                subst hiteq
                by_cases hid : (it.id == existing.id) = true
                · rw [if_pos hid]
                  simp only []
                  omega
                · rw [if_neg hid]
                  exact (hitems c hcmem).1 it hitmem
              · rw [map_menuItemId_of_preserving]
                · exact (hitems c hcmem).2
                · intro it; split <;> rfl
            · rw [if_neg hcu]
              exact hitems c hcmem
        | none =>
          rw [hex] at h
          simp only [Except.ok.injEq] at h
          subst h
          have hnomem : ∀ it ∈ cart.items, ¬(it.menuItemId == m) = true :=
            List.find?_eq_none.mp hex
          constructor
          · rw [map_userId_of_preserving]
            · exact hnu
            · intro c; split <;> rfl
          · intro c' hc'
            obtain ⟨c, hcmem, hceq⟩ := List.mem_map.mp hc'
            subst hceq
            by_cases hcu : (c.userId == u) = true
            · rw [if_pos hcu]
              have hceqcart : c = cart := by
                refine List.inj_on_of_nodup_map hnu hcmem hcartmem ?_
                have h1 : c.userId = u := by simpa using hcu
                have h2 : cart.userId = u := by simpa using hcartu
                rw [h1, h2]
              subst hceqcart
              constructor
              · intro it hit
                rcases List.mem_append.mp hit with hold | hnew
                · exact (hitems c hcmem).1 it hold
                · simp only [List.mem_singleton] at hnew
                  subst hnew
                  simpa using hq
              · simp only [List.map_append, List.map_cons, List.map_nil]
                refine ((hitems c hcmem).2).append (by simp) ?_
                intro x hx
                simp only [List.mem_singleton]
                obtain ⟨it, hitmem, hitx⟩ := List.mem_map.mp hx
                intro hxm
                exact hnomem it hitmem (by simp [hitx, hxm])
            · rw [if_neg hcu]
              exact hitems c hcmem

theorem updateCartItem_inv (u : String) (itemId : String) (q : Option Int)
    (n : Option String) (s s' : St) (hinv : CartInv s)
    (h : updateCartItem u itemId q n s = .ok s') : CartInv s' := by
  obtain ⟨hnu, hitems⟩ := hinv
  rw [updateCartItem] at h
  cases hc : findCart u s with
  | none => rw [hc] at h; simp at h
  | some cart =>
    rw [hc] at h
    simp only [] at h
    cases hit : cart.items.find? (fun it => it.id == itemId) with
    | none => rw [hit] at h; simp at h
    | some item =>
      rw [hit] at h
      simp only [] at h
      have hdel : CartInv { s with carts := s.carts.map (fun c =>
          if c.userId == u then
            { c with items := c.items.filter (fun it => it.id != itemId) }
          else c) } := by
        constructor
        · rw [map_userId_of_preserving]
          · exact hnu
          · intro c; split <;> rfl
        · intro c' hc'
          obtain ⟨c, hcmem, hceq⟩ := List.mem_map.mp hc'
          subst hceq
          by_cases hcu : (c.userId == u) = true
          · rw [if_pos hcu]
            refine ⟨?_, nodup_menuItemId_filter _ _ (hitems c hcmem).2⟩
            intro it hitmem
            exact (hitems c hcmem).1 it (List.mem_of_mem_filter hitmem)
          · rw [if_neg hcu]
            exact hitems c hcmem
      have hupd : (∀ z : Int, 1 ≤ z → 1 ≤ q.getD z) → CartInv { s with carts := s.carts.map (fun c =>
          if c.userId == u then
            { c with items := c.items.map (fun it =>
                if it.id == itemId then
                  { it with quantity := q.getD it.quantity, notes := n.or it.notes }
                else it) }
          else c) } := by
        intro hget
        constructor
        · rw [map_userId_of_preserving]
          · exact hnu
          · intro c; split <;> rfl
        · intro c' hc'
          obtain ⟨c, hcmem, hceq⟩ := List.mem_map.mp hc'
          subst hceq
          by_cases hcu : (c.userId == u) = true
          · rw [if_pos hcu]
            constructor
            · intro it' hit'
              obtain ⟨it, hitmem, hiteq⟩ := List.mem_map.mp hit'
              subst hiteq
              by_cases hid : (it.id == itemId) = true
              · rw [if_pos hid]
                exact hget it.quantity ((hitems c hcmem).1 it hitmem)
              · rw [if_neg hid]
                exact (hitems c hcmem).1 it hitmem
            · rw [map_menuItemId_of_preserving]
              · exact (hitems c hcmem).2
              · intro it; split <;> rfl
          · rw [if_neg hcu]
            exact hitems c hcmem
      cases q with
      | none =>
        simp only [Except.ok.injEq] at h
        subst h
        exact hupd (by intro z hz; simpa using hz)
      | some x =>
        simp only [] at h
        by_cases hx : x ≤ 0
        · rw [if_pos hx] at h
          simp only [Except.ok.injEq] at h
          subst h
          exact hdel
        · rw [if_neg hx] at h
          simp only [Except.ok.injEq] at h
          subst h
          exact hupd (by intro z hz; simp only [Option.getD_some]; omega)

theorem removeFromCart_inv (u : String) (itemId : String) (s s' : St)
    (hinv : CartInv s) (h : removeFromCart u itemId s = .ok s') : CartInv s' := by
  obtain ⟨hnu, hitems⟩ := hinv
  rw [removeFromCart] at h
  cases hc : findCart u s with
  | none => rw [hc] at h; simp at h
  | some cart =>
    rw [hc] at h
    simp only [] at h
    cases hit : cart.items.find? (fun it => it.id == itemId) with
    | none => rw [hit] at h; simp at h
    | some item =>
      rw [hit] at h
      simp only [Except.ok.injEq] at h
      subst h
      constructor
      · rw [map_userId_of_preserving]
        · exact hnu
        · intro c; split <;> rfl
      · intro c' hc'
        obtain ⟨c, hcmem, hceq⟩ := List.mem_map.mp hc'
        subst hceq
        by_cases hcu : (c.userId == u) = true
        · rw [if_pos hcu]
          refine ⟨?_, nodup_menuItemId_filter _ _ (hitems c hcmem).2⟩
          intro it hitmem
          exact (hitems c hcmem).1 it (List.mem_of_mem_filter hitmem)
        · rw [if_neg hcu]
          exact hitems c hcmem

theorem clearCart_inv (u : String) (s : St) (hinv : CartInv s) :
    CartInv (clearCart u s) := by
  obtain ⟨hnu, hitems⟩ := hinv
  rw [clearCart]
  cases hc : findCart u s with
  | none => exact ⟨hnu, hitems⟩
  | some cart =>
    constructor
    · rw [clearCartItems, map_userId_of_preserving]
      · exact hnu
      · intro c; split <;> rfl
    · intro c' hc'
      rw [clearCartItems] at hc'
      obtain ⟨c, hcmem, hceq⟩ := List.mem_map.mp hc'
      subst hceq
      by_cases hcu : (c.userId == u) = true
      · rw [if_pos hcu]
        exact ⟨by simp, by simp⟩
      · rw [if_neg hcu]
        exact hitems c hcmem

theorem applyCartOp_inv (op : CartOp) (s : St) (hv : validCartOp op)
    (hinv : CartInv s) : CartInv (applyCartOp op s) := by
  cases op with
  | add u m q n =>
    dsimp [applyCartOp]
    cases h : addToCart u m q n s with
    | error e => exact hinv
    | ok s' => exact addToCart_inv u m q n s s' hv hinv h
  | update u i q n =>
    dsimp [applyCartOp]
    cases h : updateCartItem u i q n s with
    | error e => exact hinv
    | ok s' => exact updateCartItem_inv u i q n s s' hinv h
  | remove u i =>
    dsimp [applyCartOp]
    cases h : removeFromCart u i s with
    | error e => exact hinv
    | ok s' => exact removeFromCart_inv u i s s' hinv h
  | clear u =>
    exact clearCart_inv u s hinv

/-- C8: under the request validator's positive-quantity rule for `addToCart`,
every sequence of cart operations preserves the cart invariant (at most one
line per (cart, menu item) pair, all quantities ≥ 1); and `updateCartItem`
with a supplied quantity ≤ 0 on an existing line deletes that line instead of
persisting a non-positive quantity. -/
theorem C8_cart_invariant :
    (∀ (ops : List CartOp) (s : St), (∀ op ∈ ops, validCartOp op) → CartInv s →
        CartInv (runCartOps ops s))
    ∧ (∀ (u : String) (itemId : String) (q : Int) (n : Option String) (s : St)
        (cart : Cart) (item : CartItem),
        findCart u s = some cart →
        cart.items.find? (fun it => it.id == itemId) = some item →
        q ≤ 0 →
        updateCartItem u itemId (some q) n s =
          .ok { s with carts := s.carts.map (fun c =>
            if c.userId == u then
              { c with items := c.items.filter (fun it => it.id != itemId) }
            else c) }) := by
  constructor
  · intro ops
    induction ops with
    | nil => intro s _ hinv; exact hinv
    | cons op rest ih =>
      intro s hv hinv
      exact ih (applyCartOp op s)
        (fun o ho => hv o (List.mem_cons_of_mem op ho))
        (applyCartOp_inv op s (hv op (List.mem_cons_self op rest)) hinv)
  · intro u itemId q n s cart item hcart hitem hq
    rw [updateCartItem, hcart]
    simp only [hitem, if_pos hq]

def c8Item : CartItem :=
  { id := "ci1", menuItemId := "m1", quantity := 2, notes := none }

def c8S : St :=
  { restaurants := [], menuItems := [], carts := [{ userId := "u1", items := [c8Item] }]
    orders := [], deliveries := [], drivers := [], kv := [], queue := []
    processing := none, isProcessing := false, nextId := 3, now := 0 }

theorem C8_cart_invariant_witness :
    CartInv (runCartOps [CartOp.add "u1" "m1" 1 none] c8S)
    ∧ updateCartItem "u1" "ci1" (some 0) none c8S =
        .ok { c8S with carts := c8S.carts.map (fun c =>
          if c.userId == "u1" then
            { c with items := c.items.filter (fun it => it.id != "ci1") }
          else c) } :=
  ⟨C8_cart_invariant.1 [CartOp.add "u1" "m1" 1 none] c8S
      (by intro op hop; simp at hop; subst hop; exact le_refl 1)
      ⟨by simp [c8S], by
        intro cart hcart
        simp only [c8S, List.mem_singleton] at hcart
        subst hcart
        exact ⟨by intro it hit; simp [c8Item] at hit; simp [hit, c8Item], by simp [c8Item]⟩⟩,
   C8_cart_invariant.2 "u1" "ci1" 0 none c8S { userId := "u1", items := [c8Item] } c8Item
      (by rfl) (by rfl) (by omega)⟩

-- ==================== C9: BACKGROUND FIFO QUEUE ====================

theorem createOrder_preserves_queue (u : String) (d : CreateOrderData) (s : St)
    (o : Order) (s' : St) (h : createOrder u d s = .ok (o, s')) :
    s'.queue = s.queue ∧ s'.processing = s.processing
    ∧ s'.isProcessing = s.isProcessing := by
  rw [createOrder] at h
  split at h
  · simp at h
  · cases hsi : sourceOrderItems u d s with
    | error e => rw [hsi] at h; simp at h
    | ok items =>
      rw [hsi] at h
      simp only [Except.ok.injEq, Prod.mk.injEq] at h
      obtain ⟨_, hs⟩ := h
      rw [← hs]
      exact ⟨rfl, rfl, rfl⟩

theorem processItem_state (item : QueuedOrder) (s : St) :
    (processItem item s).2.processing = none
    ∧ (processItem item s).2.queue = s.queue
    ∧ (processItem item s).2.isProcessing = s.isProcessing
    ∧ (processItem item s).1.clientId = item.clientId := by
  rw [processItem]
  cases h : createOrder item.userId (queuedToData item) { s with processing := some item } with
  | ok p =>
    obtain ⟨hq, _, hip⟩ := createOrder_preserves_queue _ _ _ p.1 p.2 (by rw [h])
    exact ⟨rfl, hq, hip, rfl⟩
  | error e =>
    exact ⟨rfl, rfl, rfl, rfl⟩

theorem drainLoop_spec (fuel : Nat) :
    ∀ s : St, s.queue.length ≤ fuel →
      ((drainLoop fuel s).1.map (fun r => r.clientId)
          = s.queue.map (fun q => q.clientId))
      ∧ (drainLoop fuel s).2.queue = [] := by
  induction fuel with
  | zero =>
    intro s hfuel
    have hq : s.queue = [] := List.length_eq_zero.mp (Nat.le_zero.mp hfuel)
    rw [drainLoop]
    simp [hq]
  | succ fuel ih =>
    intro s hfuel
    rw [drainLoop]
    cases hq : s.queue with
    | nil => simp [hq]
    | cons item rest =>
      simp only []
      have hst := processItem_state item { s with queue := rest }
      have hlen : (processItem item { s with queue := rest }).2.queue.length ≤ fuel := by
        rw [hst.2.1]
        show rest.length ≤ fuel
        have hl : s.queue.length = rest.length + 1 := by rw [hq]; simp
        omega
      have hih := ih _ hlen
      constructor
      · simp only [List.map_cons, hst.2.2.2, hih.1, hst.2.1, hq]
      · exact hih.2

/-- C9: a run of `processQueue` on a state whose drain guard is clear replays
the queued items strictly in FIFO order (the result list lines up with the
queue head-first), returns with the queue drained to empty, and each item's
processing sets then clears the single-slot in-flight marker and invokes
`createOrder` exactly once, on success and failure paths alike. -/
theorem C9_processQueue_fifo (s : St) :
    (s.isProcessing = false →
      ((processQueue s).1.map (fun r => r.clientId)
          = s.queue.map (fun q => q.clientId))
      ∧ (processQueue s).2.queue = [])
    ∧ (∀ (item : QueuedOrder) (t : St),
        ((processItem item t).2).processing = none
        ∧ ((processItem item t).1.success = true ↔
            ∃ pr, createOrder item.userId (queuedToData item)
              { t with processing := some item } = .ok pr)) := by
  constructor
  · intro hip
    rw [processQueue, if_neg (by rw [hip]; exact Bool.false_ne_true)]
    have hd := drainLoop_spec s.queue.length { s with isProcessing := true } (le_refl _)
    exact ⟨hd.1, hd.2⟩
  · intro item t
    constructor
    · exact (processItem_state item t).1
    · rw [processItem]
      cases h : createOrder item.userId (queuedToData item) { t with processing := some item } with
      | ok p => simp
      | error e => simp

def c9S : St :=
  { restaurants := ["r1"]
    menuItems := [{ id := "m1", itemName := "Burger", price := 9
                    isAvailable := true, restaurantId := "r1" }]
    carts := [], orders := [], deliveries := [], drivers := [], kv := []
    queue := [{ clientId := "q1", userId := "u1", restaurantId := "r1"
                deliveryAddress := "10 Main Street", notes := none
                items := [{ menuItemId := "m1", quantity := 1, notes := none }]
                createdAt := 5 },
              { clientId := "q2", userId := "u1", restaurantId := "r1"
                deliveryAddress := "10 Main Street", notes := none
                items := [{ menuItemId := "nope", quantity := 1, notes := none }]
                createdAt := 6 }]
    processing := none, isProcessing := false, nextId := 0, now := 0 }

theorem C9_processQueue_fifo_witness :
    ((processQueue c9S).1.map (fun r => r.clientId)
        = c9S.queue.map (fun q => q.clientId))
    ∧ (processQueue c9S).2.queue = [] :=
  (C9_processQueue_fifo c9S).1 (by rfl)

-- ==================== OK-INVERSION LEMMAS ====================

theorem createOrder_ok_inv (u : String) (d : CreateOrderData) (s : St)
    (r : Order × St) (h : createOrder u d s = .ok r) :
    r.2.orders = s.orders ++ [r.1] ∧ r.2.deliveries = s.deliveries
    ∧ r.2.drivers = s.drivers ∧ r.2.nextId = s.nextId + 1 := by
  rw [createOrder] at h
  split at h
  · simp at h
  · cases hsi : sourceOrderItems u d s with
    | error e => rw [hsi] at h; simp at h
    | ok items =>
      rw [hsi] at h
      simp only [Except.ok.injEq] at h
      rw [← h]
      exact ⟨rfl, rfl, rfl, rfl⟩

theorem updateOrderStatus_ok_inv (oid : String) (ns : OrderStatus) (s : St)
    (r : Order × St) (h : updateOrderStatus oid ns s = .ok r) :
    ∃ o0, findOrder oid s = some o0
      ∧ (STATUS_TRANSITIONS o0.status).contains ns = true
      ∧ r.2 = { s with orders := s.orders.map (fun o =>
          if o.id == oid then { o with status := ns } else o) } := by
  rw [updateOrderStatus] at h
  cases hf : findOrder oid s with
  | none => rw [hf] at h; simp at h
  | some o0 =>
    rw [hf] at h
    simp only [] at h
    split at h
    · simp at h
    · rename_i hcont
      refine ⟨o0, rfl, by simpa using hcont, ?_⟩
      simp only [Except.ok.injEq] at h
      rw [← h]

theorem cancelOrder_ok_inv (oid : String) (u : String) (s : St)
    (r : Order × St) (h : cancelOrder oid u s = .ok r) :
    updateOrderStatus oid OrderStatus.CANCELLED s = .ok r := by
  rw [cancelOrder] at h
  cases hf : findOrder oid s with
  | none => rw [hf] at h; simp at h
  | some o0 =>
    rw [hf] at h
    simp only [] at h
    split at h
    · simp at h
    · split at h
      · simp at h
      · exact h

theorem assignDriver_ok_inv (oid : String) (did : String) (et : Option Int)
    (s : St) (r : Delivery × St) (h : assignDriver oid did et s = .ok r) :
    ∃ order driver, findOrder oid s = some order
      ∧ (order.status = .PREPARING ∨ order.status = .CONFIRMED)
      ∧ hasDeliveryForOrder oid s = false
      ∧ findDriver did s = some driver
      ∧ driver.isAvailable = true
      ∧ r.1 = { id := s.nextId, orderId := oid, driverId := did
                status := .ASSIGNED, estimatedTime := et
                pickupTime := none, deliveryTime := none }
      ∧ r.2 = { s with
                deliveries := s.deliveries ++ [r.1]
                orders := if order.status == .PREPARING then
                    s.orders.map (fun o =>
                      if o.id == oid then { o with status := .ON_THE_WAY } else o)
                  else s.orders
                drivers := s.drivers.map (fun dr =>
                  if dr.id == did then { dr with isAvailable := false } else dr)
                nextId := s.nextId + 1 } := by
  rw [assignDriver] at h
  cases hf : findOrder oid s with
  | none => rw [hf] at h; simp at h
  | some order =>
    rw [hf] at h
    simp only [] at h
    split at h
    · simp at h
    · rename_i hstage
      split at h
      · simp at h
      · rename_i hdel
        cases hd : findDriver did s with
        | none => rw [hd] at h; simp at h
        | some driver =>
          rw [hd] at h
          simp only [] at h
          split at h
          · simp at h
          · rename_i hav
            have hstage' : order.status = .PREPARING ∨ order.status = .CONFIRMED := by
              by_contra hcon
              push_neg at hcon
              exact hstage (by simp [hcon.1, hcon.2])
            refine ⟨order, driver, rfl, hstage', by simpa using hdel, rfl,
              by simpa using hav, ?_, ?_⟩
            · simp only [Except.ok.injEq] at h
              rw [← h]
            · simp only [Except.ok.injEq] at h
              rw [← h]

theorem updateDeliveryStatus_ok_inv (did : Nat) (ns : DeliveryStatus) (s : St)
    (r : Delivery × St) (h : updateDeliveryStatus did ns s = .ok r) :
    ∃ del, findDelivery did s = some del
      ∧ (DELIVERY_STATUS_TRANSITIONS del.status).contains ns = true
      ∧ r.2 = { s with
          deliveries := s.deliveries.map (fun d =>
            if d.id == did then
              { d with status := ns
                       pickupTime := if ns == .PICKED_UP then some s.now else d.pickupTime
                       deliveryTime := if ns == .DELIVERED then some s.now else d.deliveryTime }
            else d)
          orders := if ns == .DELIVERED then
              s.orders.map (fun o =>
                if o.id == del.orderId then { o with status := .DELIVERED } else o)
            else s.orders
          drivers := if ns == .DELIVERED then
              s.drivers.map (fun dr =>
                if dr.id == del.driverId then
                  { dr with isAvailable := true, totalDeliveries := dr.totalDeliveries + 1 }
                else dr)
            else s.drivers } := by
  rw [updateDeliveryStatus] at h
  cases hf : findDelivery did s with
  | none => rw [hf] at h; simp at h
  | some del =>
    rw [hf] at h
    simp only [] at h
    split at h
    · simp at h
    · rename_i hcont
      refine ⟨del, rfl, by simpa using hcont, ?_⟩
      simp only [Except.ok.injEq] at h
      rw [← h]

theorem updateDriverAvailability_ok_inv (did : String) (b : Bool) (s : St)
    (r : Driver × St) (h : updateDriverAvailability did b s = .ok r) :
    ∃ driver, findDriver did s = some driver
      ∧ (b = false → hasActiveDelivery did s = false)
      ∧ r.2 = { s with drivers := s.drivers.map (fun d =>
          if d.id == did then { d with isAvailable := b } else d) } := by
  rw [updateDriverAvailability] at h
  cases hf : findDriver did s with
  | none => rw [hf] at h; simp at h
  | some driver =>
    rw [hf] at h
    simp only [] at h
    split at h
    · simp at h
    · rename_i hguard
      refine ⟨driver, rfl, ?_, ?_⟩
      · intro hb
        subst hb
        by_contra hact
        exact hguard (by simp [eq_true_of_ne_false hact])
      · simp only [Except.ok.injEq] at h
        rw [← h]

theorem find?_map_same_pred {α : Type} (p : α → Bool) (f : α → α)
    (hf : ∀ x, p (f x) = p x) (l : List α) :
    (l.map f).find? p = (l.find? p).map f := by
  induction l with
  | nil => rfl
  | cons a t ih =>
    simp only [List.map_cons, List.find?_cons, hf]
    cases hpa : p a
    · exact ih
    · rfl

theorem find?_append_of_some {α : Type} (p : α → Bool) (l1 l2 : List α) (a : α)
    (h : l1.find? p = some a) : (l1 ++ l2).find? p = some a := by
  induction l1 with
  | nil => simp [List.find?] at h
  | cons x t ih =>
    rw [List.cons_append]
    rw [List.find?_cons] at h ⊢
    cases hpx : p x
    · rw [hpx] at h; exact ih h
    · rw [hpx] at h; exact h

-- ==================== C1: ORDER STATUS EDGES ====================

theorem findOrder_status_map (oid : String) (tid : String) (ns : OrderStatus)
    (l : List Order) (oldO newO : Order)
    (h1 : l.find? (fun o => o.id == oid) = some oldO)
    (h2 : (l.map (fun o => if o.id == tid then { o with status := ns } else o)).find?
        (fun o => o.id == oid) = some newO) :
    newO = oldO ∨ (newO = { oldO with status := ns } ∧ oldO.id = tid) := by
  rw [find?_map_same_pred _ _ (by intro o; split <;> rfl) l, h1] at h2
  simp only [Option.map_some'] at h2
  injection h2 with h2
  by_cases hid : (oldO.id == tid) = true
  · rw [if_pos hid] at h2
    exact Or.inr ⟨h2.symm, by simpa using hid⟩
  · rw [if_neg hid] at h2
    exact Or.inl h2.symm

theorem findOrder_eq_of_id (oid : String) (oid' : String) (s : St)
    (o0 oldO : Order) (hfind : findOrder oid' s = some o0)
    (h1 : findOrder oid s = some oldO) (hid : oldO.id = oid') : o0 = oldO := by
  have hoid : oldO.id = oid := by
    have hx := List.find?_some
      (show s.orders.find? (fun o => o.id == oid) = some oldO from h1)
    simpa using hx
  have heq : oid' = oid := by rw [← hid, hoid]
  rw [heq, h1] at hfind
  injection hfind with hf
  exact hf.symm

theorem updateOrderStatus_status_edges (oid' : String) (ns : OrderStatus)
    (s : St) (r : Order × St) (h : updateOrderStatus oid' ns s = .ok r)
    (oid : String) (oldO newO : Order) (h1 : findOrder oid s = some oldO)
    (h2 : findOrder oid r.2 = some newO) :
    newO.status = oldO.status
    ∨ (STATUS_TRANSITIONS oldO.status).contains newO.status = true := by
  obtain ⟨o0, hfind, hcont, hstate⟩ := updateOrderStatus_ok_inv oid' ns s r h
  have horders : r.2.orders = s.orders.map (fun o =>
      if o.id == oid' then { o with status := ns } else o) := by rw [hstate]
  rw [findOrder, horders] at h2
  rcases findOrder_status_map oid oid' ns s.orders oldO newO h1 h2 with hsame | ⟨hnew, hid⟩
  · exact Or.inl (by rw [hsame])
  · right
    rw [hnew]
    have ho0 : o0 = oldO := findOrder_eq_of_id oid oid' s o0 oldO hfind h1 hid
    rw [ho0] at hcont
    exact hcont

/-- C1 (amended): after any single operation applied to any state — hence
along any operation sequence — an order's status either stays unchanged or
moves along an edge of the §4.1 transition table, except that
`updateDeliveryStatus` reaching `DELIVERED` writes the parent order's status
to `DELIVERED` unconditionally, which is how an order can reach `DELIVERED`
without ever being `ON_THE_WAY` (and how a `CANCELLED` order can change
status again). -/
theorem C1_amended_status_edges (op : Op) (s : St) (oid : String)
    (oldO newO : Order) (h1 : findOrder oid s = some oldO)
    (h2 : findOrder oid (applyOp op s) = some newO) :
    newO.status = oldO.status
    ∨ (STATUS_TRANSITIONS oldO.status).contains newO.status = true
    ∨ (newO.status = .DELIVERED
        ∧ ∃ did, op = .updateDeliveryStatus did .DELIVERED) := by
  cases op with
  | createOrder u d =>
    cases hr : createOrder u d s with
    | error e =>
      have hstate : applyOp (Op.createOrder u d) s = s := by
        dsimp only [applyOp]; rw [hr]
      rw [hstate, h1] at h2
      injection h2 with h2
      exact Or.inl (by rw [← h2])
    | ok p =>
      have hstate : applyOp (Op.createOrder u d) s = p.2 := by
        dsimp only [applyOp]; rw [hr]
      rw [hstate] at h2
      obtain ⟨ho, _, _, _⟩ := createOrder_ok_inv u d s p hr
      rw [findOrder, ho, find?_append_of_some _ _ _ _ h1] at h2
      injection h2 with h2
      exact Or.inl (by rw [← h2])
  | updateOrderStatus oid' ns =>
    cases hr : updateOrderStatus oid' ns s with
    | error e =>
      have hstate : applyOp (Op.updateOrderStatus oid' ns) s = s := by
        dsimp only [applyOp]; rw [hr]
      rw [hstate, h1] at h2
      injection h2 with h2
      exact Or.inl (by rw [← h2])
    | ok p =>
      have hstate : applyOp (Op.updateOrderStatus oid' ns) s = p.2 := by
        dsimp only [applyOp]; rw [hr]
      rw [hstate] at h2
      rcases updateOrderStatus_status_edges oid' ns s p hr oid oldO newO h1 h2 with
        hx | hx
      · exact Or.inl hx
      · exact Or.inr (Or.inl hx)
  | cancelOrder oid' u =>
    cases hr : cancelOrder oid' u s with
    | error e =>
      have hstate : applyOp (Op.cancelOrder oid' u) s = s := by
        dsimp only [applyOp]; rw [hr]
      rw [hstate, h1] at h2
      injection h2 with h2
      exact Or.inl (by rw [← h2])
    | ok p =>
      have hstate : applyOp (Op.cancelOrder oid' u) s = p.2 := by
        dsimp only [applyOp]; rw [hr]
      rw [hstate] at h2
      rcases updateOrderStatus_status_edges oid' .CANCELLED s p
          (cancelOrder_ok_inv oid' u s p hr) oid oldO newO h1 h2 with hx | hx
      · exact Or.inl hx
      · exact Or.inr (Or.inl hx)
  | assignDriver oid' did' et =>
    cases hr : assignDriver oid' did' et s with
    | error e =>
      have hstate : applyOp (Op.assignDriver oid' did' et) s = s := by
        dsimp only [applyOp]; rw [hr]
      rw [hstate, h1] at h2
      injection h2 with h2
      exact Or.inl (by rw [← h2])
    | ok p =>
      have hstate : applyOp (Op.assignDriver oid' did' et) s = p.2 := by
        dsimp only [applyOp]; rw [hr]
      rw [hstate] at h2
      obtain ⟨order, driver, hfind, hstage, _, _, _, _, hs2⟩ :=
        assignDriver_ok_inv oid' did' et s p hr
      by_cases hps : order.status = .PREPARING
      · have horders : p.2.orders = s.orders.map (fun o =>
            if o.id == oid' then { o with status := .ON_THE_WAY } else o) := by
          rw [hs2]; simp [hps]
        rw [findOrder, horders] at h2
        rcases findOrder_status_map oid oid' .ON_THE_WAY s.orders oldO newO h1 h2 with
          hsame | ⟨hnew, hid⟩
        · exact Or.inl (by rw [hsame])
        · right; left
          rw [hnew]
          have ho0 : order = oldO := findOrder_eq_of_id oid oid' s order oldO hfind h1 hid
          rw [← ho0, hps]
          rfl
      · have horders : p.2.orders = s.orders := by
          rw [hs2]; simp [hps]
        rw [findOrder, horders,
          show List.find? (fun o => o.id == oid) s.orders = some oldO from h1] at h2
        injection h2 with h2
        exact Or.inl (by rw [← h2])
  | updateDeliveryStatus did' ns =>
    cases hr : updateDeliveryStatus did' ns s with
    | error e =>
      have hstate : applyOp (Op.updateDeliveryStatus did' ns) s = s := by
        dsimp only [applyOp]; rw [hr]
      rw [hstate, h1] at h2
      injection h2 with h2
      exact Or.inl (by rw [← h2])
    | ok p =>
      have hstate : applyOp (Op.updateDeliveryStatus did' ns) s = p.2 := by
        dsimp only [applyOp]; rw [hr]
      rw [hstate] at h2
      obtain ⟨del, hfind, hcont, hs2⟩ := updateDeliveryStatus_ok_inv did' ns s p hr
      by_cases hns : ns = .DELIVERED
      · have horders : p.2.orders = s.orders.map (fun o =>
            if o.id == del.orderId then { o with status := .DELIVERED } else o) := by
          rw [hs2]; simp [hns]
        rw [findOrder, horders] at h2
        rcases findOrder_status_map oid del.orderId .DELIVERED s.orders oldO newO h1 h2 with
          hsame | ⟨hnew, _⟩
        · exact Or.inl (by rw [hsame])
        · right; right
          exact ⟨by rw [hnew], did', by rw [hns]⟩
      · have horders : p.2.orders = s.orders := by
          rw [hs2]
          simp only []
          rw [if_neg (by simpa using hns)]
        rw [findOrder, horders,
          show List.find? (fun o => o.id == oid) s.orders = some oldO from h1] at h2
        injection h2 with h2
        exact Or.inl (by rw [← h2])
  | updateDriverAvailability did' b =>
    cases hr : updateDriverAvailability did' b s with
    | error e =>
      have hstate : applyOp (Op.updateDriverAvailability did' b) s = s := by
        dsimp only [applyOp]; rw [hr]
      rw [hstate, h1] at h2
      injection h2 with h2
      exact Or.inl (by rw [← h2])
    | ok p =>
      have hstate : applyOp (Op.updateDriverAvailability did' b) s = p.2 := by
        dsimp only [applyOp]; rw [hr]
      rw [hstate] at h2
      obtain ⟨driver, _, _, hs2⟩ := updateDriverAvailability_ok_inv did' b s p hr
      have horders : p.2.orders = s.orders := by rw [hs2]
      rw [findOrder, horders,
        show List.find? (fun o => o.id == oid) s.orders = some oldO from h1] at h2
      injection h2 with h2
      exact Or.inl (by rw [← h2])

def c1Order : Order :=
  { id := "o1", orderNumber := "ORD-1", userId := "u1"
    restaurantId := "r1", deliveryAddress := "10 Main Street"
    notes := none, subtotal := 18, tax := 2, deliveryFee := 5
    totalAmount := 25, status := .CONFIRMED, items := [] }

def c1S : St :=
  { restaurants := ["r1"]
    menuItems := [{ id := "m1", itemName := "Burger", price := 9
                    isAvailable := true, restaurantId := "r1" }]
    carts := []
    orders := [c1Order]
    deliveries := []
    drivers := [{ id := "d1", isAvailable := true, totalDeliveries := 0 }]
    kv := [], queue := [], processing := none, isProcessing := false
    nextId := 1, now := 0 }

def c1ops : List Op :=
  [ .assignDriver "o1" "d1" none,
    .updateDeliveryStatus 1 .PICKED_UP,
    .updateDeliveryStatus 1 .IN_TRANSIT,
    .updateDeliveryStatus 1 .DELIVERED ]

/-- C1 is false as stated: from a state whose only order is `CONFIRMED`, the
sequence assign-driver / picked-up / in-transit / delivered drives the order
straight to `DELIVERED` while its status is never `ON_THE_WAY` at any point
of the trace — so `DELIVERED` is reachable without passing `ON_THE_WAY`. -/
theorem C1_counterexample :
    ((runOps c1ops c1S).orders.map (fun o => o.status) = [.DELIVERED])
    ∧ ((List.range 5).all (fun k =>
        (runOps (c1ops.take k) c1S).orders.all
          (fun o => o.status != .ON_THE_WAY)) = true)
    ∧ c1S.orders.map (fun o => o.status) = [.CONFIRMED] := by
  refine ⟨?_, ?_, ?_⟩ <;> with_unfolding_all decide

theorem C1_amended_status_edges_witness :
    ({ c1Order with status := .PREPARING } : Order).status = c1Order.status
    ∨ (STATUS_TRANSITIONS c1Order.status).contains
        ({ c1Order with status := .PREPARING } : Order).status = true
    ∨ (({ c1Order with status := .PREPARING } : Order).status = .DELIVERED
        ∧ ∃ did, Op.updateOrderStatus "o1" .PREPARING
            = .updateDeliveryStatus did .DELIVERED) :=
  C1_amended_status_edges (Op.updateOrderStatus "o1" .PREPARING) c1S "o1"
    c1Order { c1Order with status := .PREPARING }
    (by with_unfolding_all rfl) (by with_unfolding_all rfl)

-- ==================== C2: DRIVER / ACTIVE-DELIVERY INVARIANT ====================

/-- Number of non-terminal deliveries a driver holds. -/
def countActive (driverId : String) (dels : List Delivery) : Nat :=
  dels.countP (fun d => d.driverId == driverId && isActiveDeliveryStatus d.status)

/-- Driver/delivery well-formedness: generated delivery ids are distinct and
below the id counter; every driver holds at most one active delivery, and an
available driver holds none. -/
def DriverInv (s : St) : Prop :=
  (s.deliveries.map (fun d => d.id)).Nodup
  ∧ (∀ d ∈ s.deliveries, d.id < s.nextId)
  ∧ ∀ dr ∈ s.drivers, countActive dr.id s.deliveries ≤ 1
      ∧ (dr.isAvailable = true → countActive dr.id s.deliveries = 0)

theorem countP_map_update_rel (dels : List Delivery) (del : Delivery) (did : Nat)
    (hdid : del.id = did) (hmem : del ∈ dels)
    (hnodup : (dels.map (fun d => d.id)).Nodup)
    (u : Delivery → Delivery) (p : Delivery → Bool) :
    (dels.map (fun d => if d.id == did then u d else d)).countP p
        + (if p del then 1 else 0)
      = dels.countP p + (if p (u del) then 1 else 0) := by
  obtain ⟨l1, l2, hsplit⟩ := List.append_of_mem hmem
  subst hsplit
  have hnd := hnodup
  rw [List.map_append, List.map_cons] at hnd
  have hl1 : ∀ x ∈ l1, (x.id == did) = false := by
    intro x hx
    by_contra hbe
    have hxid : x.id = did := by simpa using eq_true_of_ne_false hbe
    have : del.id ∈ l1.map (fun d => d.id) :=
      List.mem_map.mpr ⟨x, hx, by rw [hxid, hdid]⟩
    rcases List.nodup_append.mp hnd with ⟨_, _, hdisj⟩
    exact hdisj this (by simp)
  have hl2 : ∀ x ∈ l2, (x.id == did) = false := by
    intro x hx
    by_contra hbe
    have hxid : x.id = did := by simpa using eq_true_of_ne_false hbe
    rcases List.nodup_append.mp hnd with ⟨_, hnd2, _⟩
    rcases List.nodup_cons.mp hnd2 with ⟨hnotin, _⟩
    exact hnotin (List.mem_map.mpr ⟨x, hx, by rw [hxid, hdid]⟩)
  have hmap1 : l1.map (fun d => if d.id == did then u d else d) = l1 := by
    rw [List.map_congr_left (fun x hx => by rw [hl1 x hx])]
    exact List.map_id l1
  have hmap2 : l2.map (fun d => if d.id == did then u d else d) = l2 := by
    rw [List.map_congr_left (fun x hx => by rw [hl2 x hx])]
    exact List.map_id l2
  rw [List.map_append, List.map_cons, hmap1, hmap2]
  rw [if_pos (by simp [hdid])]
  simp only [List.countP_append, List.countP_cons]
  rcases Bool.eq_false_or_eq_true (p del) with hp | hp <;>
    rcases Bool.eq_false_or_eq_true (p (u del)) with hpu | hpu <;>
      simp [hp, hpu] <;> omega

theorem countActive_append_one (x : String) (dels : List Delivery) (newD : Delivery) :
    countActive x (dels ++ [newD])
      = countActive x dels
        + (if (newD.driverId == x && isActiveDeliveryStatus newD.status) = true
           then 1 else 0) := by
  simp [countActive, List.countP_append, List.countP_cons]

theorem transition_source_active (st : DeliveryStatus) (ns : DeliveryStatus)
    (h : (DELIVERY_STATUS_TRANSITIONS st).contains ns = true) :
    isActiveDeliveryStatus st = true
    ∧ (ns = .DELIVERED ∨ isActiveDeliveryStatus ns = true) := by
  cases st <;> cases ns <;>
    simp_all [DELIVERY_STATUS_TRANSITIONS, isActiveDeliveryStatus]

theorem DriverInv_assignDriver (oid : String) (did : String) (et : Option Int)
    (s : St) (p : Delivery × St) (h : assignDriver oid did et s = .ok p)
    (hinv : DriverInv s) : DriverInv p.2 := by
  obtain ⟨hnodup, hbound, hdrv⟩ := hinv
  obtain ⟨order, driver, hfo, hstage, hdel, hfd, hav, hp1, hp2⟩ :=
    assignDriver_ok_inv oid did et s p h
  have hdrvmem : driver ∈ s.drivers := List.mem_of_find?_eq_some hfd
  have hdrvid : driver.id = did := by
    have hx := List.find?_some
      (show s.drivers.find? (fun d => d.id == did) = some driver from hfd)
    simpa using hx
  have hzero : countActive did s.deliveries = 0 := by
    have := (hdrv driver hdrvmem).2 hav
    rw [hdrvid] at this
    exact this
  rw [hp2]
  refine ⟨?_, ?_, ?_⟩
  · simp only [List.map_append, List.map_cons, List.map_nil, hp1]
    refine hnodup.append (by simp) ?_
    intro x hx
    simp only [List.mem_singleton]
    obtain ⟨d, hd, hdx⟩ := List.mem_map.mp hx
    intro hxe
    have : d.id < s.nextId := hbound d hd
    omega
  · intro d hd
    rcases List.mem_append.mp hd with hold | hnew
    · exact Nat.lt_succ_of_lt (hbound d hold)
    · simp only [List.mem_singleton] at hnew
      subst hnew
      rw [hp1]
      exact Nat.lt_succ_self _
  · intro dr' hdr'
    obtain ⟨dr, hdrmem, hdreq⟩ := List.mem_map.mp hdr'
    subst hdreq
    by_cases hid : (dr.id == did) = true
    · rw [if_pos hid]
      have hdrid : dr.id = did := by simpa using hid
      constructor
      · show countActive dr.id (s.deliveries ++ [p.1]) ≤ 1
        rw [countActive_append_one, hdrid, hzero, hp1]
        split <;> omega
      · intro hfalse
        simp at hfalse
    · rw [if_neg hid]
      have hdrid : dr.id ≠ did := by simpa using hid
      have hnewmiss : ((p.1.driverId == dr.id) && isActiveDeliveryStatus p.1.status) = false := by
        rw [hp1]
        simp only []
        have hne : did ≠ dr.id := fun hh => hdrid hh.symm
        have : (did == dr.id) = false := by simp [hne]
        simp [this]
      constructor
      · show countActive dr.id (s.deliveries ++ [p.1]) ≤ 1
        rw [countActive_append_one, hnewmiss]
        simpa using (hdrv dr hdrmem).1
      · intro htrue
        show countActive dr.id (s.deliveries ++ [p.1]) = 0
        rw [countActive_append_one, hnewmiss]
        simpa using (hdrv dr hdrmem).2 htrue

theorem DriverInv_updateDeliveryStatus (did : Nat) (ns : DeliveryStatus)
    (s : St) (p : Delivery × St) (h : updateDeliveryStatus did ns s = .ok p)
    (hinv : DriverInv s) : DriverInv p.2 := by
  obtain ⟨hnodup, hbound, hdrv⟩ := hinv
  obtain ⟨del, hfdel, hcont, hp2⟩ := updateDeliveryStatus_ok_inv did ns s p h
  have hdelmem : del ∈ s.deliveries := List.mem_of_find?_eq_some hfdel
  have hdelid : del.id = did := by
    have hx := List.find?_some
      (show s.deliveries.find? (fun d => d.id == did) = some del from hfdel)
    simpa using hx
  obtain ⟨hactive, hns⟩ := transition_source_active del.status ns hcont
  set u : Delivery → Delivery := fun d =>
    { d with status := ns
             pickupTime := if ns == .PICKED_UP then some s.now else d.pickupTime
             deliveryTime := if ns == .DELIVERED then some s.now else d.deliveryTime }
    with hu
  have hrel : ∀ x : String,
      countActive x (s.deliveries.map (fun d => if d.id == did then u d else d))
          + (if (del.driverId == x && isActiveDeliveryStatus del.status) = true
             then 1 else 0)
        = countActive x s.deliveries
          + (if ((u del).driverId == x && isActiveDeliveryStatus (u del).status) = true
             then 1 else 0) := by
    intro x
    exact countP_map_update_rel s.deliveries del did hdelid hdelmem hnodup u _
  have hids : (s.deliveries.map (fun d => if d.id == did then u d else d)).map
      (fun d => d.id) = s.deliveries.map (fun d => d.id) := by
    rw [List.map_map]
    exact List.map_congr_left (fun d _ => by simp only [Function.comp]; split <;> rfl)
  have hdeliveries : p.2.deliveries
      = s.deliveries.map (fun d => if d.id == did then u d else d) := by
    rw [hp2]
  have hnextId : p.2.nextId = s.nextId := by rw [hp2]
  refine ⟨?_, ?_, ?_⟩
  · rw [hdeliveries, hids]; exact hnodup
  · intro d hd
    rw [hdeliveries] at hd
    rw [hnextId]
    obtain ⟨d0, hd0, hdeq⟩ := List.mem_map.mp hd
    have : d.id = d0.id := by rw [← hdeq]; split <;> rfl
    rw [this]
    exact hbound d0 hd0
  · rcases hns with hdelv | hactive_ns
    · -- terminal transition: delivery becomes DELIVERED, driver freed
      subst hdelv
      have hudel_inactive :
          ((u del).driverId == ·) = ((del.driverId == ·)) := rfl
      intro dr' hdr'
      have hdrivers : p.2.drivers = s.drivers.map (fun d =>
          if d.id == del.driverId then
            { d with isAvailable := true, totalDeliveries := d.totalDeliveries + 1 }
          else d) := by
        rw [hp2]; simp
      rw [hdrivers] at hdr'
      obtain ⟨dr, hdrmem, hdreq⟩ := List.mem_map.mp hdr'
      subst hdreq
      by_cases hid : (dr.id == del.driverId) = true
      · rw [if_pos hid]
        have hdrid : dr.id = del.driverId := by simpa using hid
        have hc := hrel dr.id
        rw [hdrid] at hc
        have hmatch : (del.driverId == del.driverId && isActiveDeliveryStatus del.status)
            = true := by simp [hactive]
        have hnomatch : ((u del).driverId == del.driverId
            && isActiveDeliveryStatus (u del).status) = false := by
          simp [hu, isActiveDeliveryStatus]
        rw [hmatch, hnomatch] at hc
        have hc2 : countActive del.driverId
            (s.deliveries.map (fun d => if d.id == did then u d else d)) + 1
            = countActive del.driverId s.deliveries := hc
        have hold := (hdrv dr hdrmem).1
        rw [hdrid] at hold
        have hcnt0 : countActive del.driverId
            (s.deliveries.map (fun d => if d.id == did then u d else d)) = 0 := by
          omega
        constructor
        · show countActive dr.id p.2.deliveries ≤ 1
          rw [hdeliveries, hdrid, hcnt0]
          omega
        · intro _
          show countActive dr.id p.2.deliveries = 0
          rw [hdeliveries, hdrid, hcnt0]
      · rw [if_neg hid]
        have hdrid : dr.id ≠ del.driverId := by simpa using hid
        have hc := hrel dr.id
        have hmiss1 : (del.driverId == dr.id && isActiveDeliveryStatus del.status)
            = false := by
          have hne : del.driverId ≠ dr.id := fun hh => hdrid hh.symm
          have : (del.driverId == dr.id) = false := by simp [hne]
          simp [this]
        have hmiss2 : ((u del).driverId == dr.id
            && isActiveDeliveryStatus (u del).status) = false := by
          have hne : del.driverId ≠ dr.id := fun hh => hdrid hh.symm
          have : ((u del).driverId == dr.id) = false := by
            simp only [hu]
            simp [hne]
          simp [this]
        rw [hmiss1, hmiss2] at hc
        have hsame : countActive dr.id
            (s.deliveries.map (fun d => if d.id == did then u d else d))
            = countActive dr.id s.deliveries := hc
        constructor
        · show countActive dr.id p.2.deliveries ≤ 1
          rw [hdeliveries, hsame]
          exact (hdrv dr hdrmem).1
        · intro htrue
          show countActive dr.id p.2.deliveries = 0
          rw [hdeliveries, hsame]
          exact (hdrv dr hdrmem).2 htrue
    · -- non-terminal transition: the delivery stays active, drivers untouched
      have hnsd : (ns == DeliveryStatus.DELIVERED) = false := by
        cases ns <;> simp_all [isActiveDeliveryStatus]
      have hdrivers : p.2.drivers = s.drivers := by
        rw [hp2]
        exact if_neg (by simp [hnsd])
      intro dr hdrmem'
      rw [hdrivers] at hdrmem'
      have hc := hrel dr.id
      have hpu_eq : ((u del).driverId == dr.id && isActiveDeliveryStatus (u del).status)
          = (del.driverId == dr.id && isActiveDeliveryStatus del.status) := by
        show (del.driverId == dr.id && isActiveDeliveryStatus ns)
            = (del.driverId == dr.id && isActiveDeliveryStatus del.status)
        rw [hactive_ns, hactive]
      rw [hpu_eq] at hc
      have hsame : countActive dr.id
          (s.deliveries.map (fun d => if d.id == did then u d else d))
          = countActive dr.id s.deliveries := by omega
      constructor
      · show countActive dr.id p.2.deliveries ≤ 1
        rw [hdeliveries, hsame]
        exact (hdrv dr hdrmem').1
      · intro htrue
        show countActive dr.id p.2.deliveries = 0
        rw [hdeliveries, hsame]
        exact (hdrv dr hdrmem').2 htrue

theorem DriverInv_of_unchanged (s s' : St)
    (hdel : s'.deliveries = s.deliveries) (hdrv : s'.drivers = s.drivers)
    (hnext : s.nextId ≤ s'.nextId) (hinv : DriverInv s) : DriverInv s' := by
  obtain ⟨h1, h2, h3⟩ := hinv
  refine ⟨by rw [hdel]; exact h1, ?_, ?_⟩
  · intro d hd
    rw [hdel] at hd
    exact lt_of_lt_of_le (h2 d hd) hnext
  · intro dr hdr
    rw [hdrv] at hdr
    rw [hdel]
    exact h3 dr hdr

theorem applyOp_DriverInv (op : Op) (s : St)
    (hexc : ∀ did, op ≠ Op.updateDriverAvailability did true)
    (hinv : DriverInv s) : DriverInv (applyOp op s) := by
  cases op with
  | createOrder u d =>
    cases hr : createOrder u d s with
    | error e =>
      have hstate : applyOp (Op.createOrder u d) s = s := by
        dsimp only [applyOp]; rw [hr]
      rw [hstate]; exact hinv
    | ok p =>
      have hstate : applyOp (Op.createOrder u d) s = p.2 := by
        dsimp only [applyOp]; rw [hr]
      rw [hstate]
      obtain ⟨_, hd, hdr, hn⟩ := createOrder_ok_inv u d s p hr
      exact DriverInv_of_unchanged s p.2 hd hdr (by omega) hinv
  | updateOrderStatus oid ns =>
    cases hr : updateOrderStatus oid ns s with
    | error e =>
      have hstate : applyOp (Op.updateOrderStatus oid ns) s = s := by
        dsimp only [applyOp]; rw [hr]
      rw [hstate]; exact hinv
    | ok p =>
      have hstate : applyOp (Op.updateOrderStatus oid ns) s = p.2 := by
        dsimp only [applyOp]; rw [hr]
      rw [hstate]
      obtain ⟨o0, _, _, hs2⟩ := updateOrderStatus_ok_inv oid ns s p hr
      exact DriverInv_of_unchanged s p.2 (by rw [hs2]) (by rw [hs2])
        (by rw [hs2]) hinv
  | cancelOrder oid u =>
    cases hr : cancelOrder oid u s with
    | error e =>
      have hstate : applyOp (Op.cancelOrder oid u) s = s := by
        dsimp only [applyOp]; rw [hr]
      rw [hstate]; exact hinv
    | ok p =>
      have hstate : applyOp (Op.cancelOrder oid u) s = p.2 := by
        dsimp only [applyOp]; rw [hr]
      rw [hstate]
      obtain ⟨o0, _, _, hs2⟩ :=
        updateOrderStatus_ok_inv oid .CANCELLED s p (cancelOrder_ok_inv oid u s p hr)
      exact DriverInv_of_unchanged s p.2 (by rw [hs2]) (by rw [hs2])
        (by rw [hs2]) hinv
  | assignDriver oid did et =>
    cases hr : assignDriver oid did et s with
    | error e =>
      have hstate : applyOp (Op.assignDriver oid did et) s = s := by
        dsimp only [applyOp]; rw [hr]
      rw [hstate]; exact hinv
    | ok p =>
      have hstate : applyOp (Op.assignDriver oid did et) s = p.2 := by
        dsimp only [applyOp]; rw [hr]
      rw [hstate]
      exact DriverInv_assignDriver oid did et s p hr hinv
  | updateDeliveryStatus did ns =>
    cases hr : updateDeliveryStatus did ns s with
    | error e =>
      have hstate : applyOp (Op.updateDeliveryStatus did ns) s = s := by
        dsimp only [applyOp]; rw [hr]
      rw [hstate]; exact hinv
    | ok p =>
      have hstate : applyOp (Op.updateDeliveryStatus did ns) s = p.2 := by
        dsimp only [applyOp]; rw [hr]
      rw [hstate]
      exact DriverInv_updateDeliveryStatus did ns s p hr hinv
  | updateDriverAvailability did b =>
    cases b with
    | true => exact absurd rfl (hexc did)
    | false =>
      cases hr : updateDriverAvailability did false s with
      | error e =>
        have hstate : applyOp (Op.updateDriverAvailability did false) s = s := by
          dsimp only [applyOp]; rw [hr]
        rw [hstate]; exact hinv
      | ok p =>
        have hstate : applyOp (Op.updateDriverAvailability did false) s = p.2 := by
          dsimp only [applyOp]; rw [hr]
        rw [hstate]
        obtain ⟨driver, _, _, hs2⟩ := updateDriverAvailability_ok_inv did false s p hr
        obtain ⟨h1, h2, h3⟩ := hinv
        have hdeliveries : p.2.deliveries = s.deliveries := by rw [hs2]
        have hnext : p.2.nextId = s.nextId := by rw [hs2]
        have hdrivers : p.2.drivers = s.drivers.map (fun d =>
            if d.id == did then { d with isAvailable := false } else d) := by
          rw [hs2]
        refine ⟨by rw [hdeliveries]; exact h1, ?_, ?_⟩
        · intro d hd
          rw [hdeliveries] at hd
          rw [hnext]
          exact h2 d hd
        · intro dr' hdr'
          rw [hdrivers] at hdr'
          obtain ⟨dr, hdrmem, hdreq⟩ := List.mem_map.mp hdr'
          subst hdreq
          by_cases hid : (dr.id == did) = true
          · rw [if_pos hid]
            refine ⟨?_, ?_⟩
            · show countActive dr.id p.2.deliveries ≤ 1
              rw [hdeliveries]
              exact (h3 dr hdrmem).1
            · intro hfalse
              simp at hfalse
          · rw [if_neg hid]
            refine ⟨?_, ?_⟩
            · show countActive dr.id p.2.deliveries ≤ 1
              rw [hdeliveries]
              exact (h3 dr hdrmem).1
            · intro htrue
              show countActive dr.id p.2.deliveries = 0
              rw [hdeliveries]
              exact (h3 dr hdrmem).2 htrue

/-- C2 (amended): under the driver/delivery well-formedness invariant,
`assignDriver` against a driver holding an active delivery fails with
`BadRequest` ("Driver is not available") whenever the order-side checks pass
— because `assignDriver` guards on `isAvailable`, which the invariant couples
to having no active delivery; and the invariant (at most one active delivery
per driver, available ⇒ none) is preserved by every operation except
`updateDriverAvailability(driver, true)`, which re-opens the guard without
checking for an active delivery. -/
theorem C2_amended_driver_invariant :
    (∀ (orderId driverId : String) (et : Option Int) (s : St)
        (order : Order) (driver : Driver),
        DriverInv s →
        findOrder orderId s = some order →
        (order.status = .PREPARING ∨ order.status = .CONFIRMED) →
        hasDeliveryForOrder orderId s = false →
        findDriver driverId s = some driver →
        1 ≤ countActive driverId s.deliveries →
        assignDriver orderId driverId et s =
          .error (.badRequest "Driver is not available"))
    ∧ (∀ (op : Op) (s : St),
        (∀ did, op ≠ Op.updateDriverAvailability did true) →
        DriverInv s → DriverInv (applyOp op s)) := by
  constructor
  · intro orderId driverId et s order driver hinv hfo hstage hdel hfd hcnt
    have hdrvmem : driver ∈ s.drivers := List.mem_of_find?_eq_some hfd
    have hdrvid : driver.id = driverId := by
      have hx := List.find?_some
        (show s.drivers.find? (fun d => d.id == driverId) = some driver from hfd)
      simpa using hx
    have havail : driver.isAvailable = false := by
      by_contra hcon
      have htrue : driver.isAvailable = true := eq_true_of_ne_false hcon
      have hz := (hinv.2.2 driver hdrvmem).2 htrue
      rw [hdrvid] at hz
      omega
    have hcond : (order.status != .PREPARING && order.status != .CONFIRMED) = false := by
      rcases hstage with hp | hc
      · simp [hp]
      · simp [hc]
    simp [assignDriver, hfo, hcond, hdel, hfd, havail]
  · exact applyOp_DriverInv

def c2Order1 : Order :=
  { id := "o1", orderNumber := "ORD-1", userId := "u1", restaurantId := "r1"
    deliveryAddress := "10 Main Street", notes := none, subtotal := 18, tax := 2
    deliveryFee := 5, totalAmount := 25, status := .CONFIRMED, items := [] }

def c2Order2 : Order :=
  { id := "o2", orderNumber := "ORD-2", userId := "u1", restaurantId := "r1"
    deliveryAddress := "12 Main Street", notes := none, subtotal := 12, tax := 1
    deliveryFee := 5, totalAmount := 18, status := .CONFIRMED, items := [] }

def c2S : St :=
  { restaurants := ["r1"], menuItems := [], carts := []
    orders := [c2Order1, c2Order2]
    deliveries := []
    drivers := [{ id := "d1", isAvailable := true, totalDeliveries := 0 }]
    kv := [], queue := [], processing := none, isProcessing := false
    nextId := 0, now := 0 }

def c2ops : List Op :=
  [ .assignDriver "o1" "d1" none,
    .updateDriverAvailability "d1" true,
    .assignDriver "o2" "d1" none ]

/-- C2 is false as stated: after assigning driver d1 to one CONFIRMED order
and flipping d1 back to available through `updateDriverAvailability` (which
does not check for an active delivery), a second `assignDriver` against d1 —
who still holds an active delivery — succeeds instead of failing with
`BadRequest`, leaving d1 with two simultaneously active deliveries. -/
theorem C2_counterexample :
    1 ≤ countActive "d1" (runOps (c2ops.take 2) c2S).deliveries
    ∧ (assignDriver "o2" "d1" none (runOps (c2ops.take 2) c2S)).isOk = true
    ∧ countActive "d1" (runOps c2ops c2S).deliveries = 2 := by
  refine ⟨?_, ?_, ?_⟩ <;> with_unfolding_all decide

def c2busyS : St :=
  { restaurants := ["r1"], menuItems := [], carts := []
    orders := [c2Order2]
    deliveries := [{ id := 0, orderId := "o1", driverId := "d1"
                     status := .ASSIGNED, estimatedTime := none
                     pickupTime := none, deliveryTime := none }]
    drivers := [{ id := "d1", isAvailable := false, totalDeliveries := 0 }]
    kv := [], queue := [], processing := none, isProcessing := false
    nextId := 1, now := 0 }

theorem C2_amended_driver_invariant_witness :
    assignDriver "o2" "d1" none c2busyS =
      .error (.badRequest "Driver is not available") :=
  C2_amended_driver_invariant.1 "o2" "d1" none c2busyS c2Order2
    { id := "d1", isAvailable := false, totalDeliveries := 0 }
    (by refine ⟨by simp [c2busyS], ?_, ?_⟩ <;> with_unfolding_all decide)
    (by with_unfolding_all rfl) (Or.inr rfl) (by with_unfolding_all rfl)
    (by with_unfolding_all rfl) (by with_unfolding_all decide)

-- ==================== C6: CHRONOLOGICAL SYNC REPLAY ====================

/-- Ascending client-timestamp order. -/
def leByTime (a b : SyncOrderInput) : Prop := a.createdAt ≤ b.createdAt

theorem insertByCreatedAt_perm (x : SyncOrderInput) (l : List SyncOrderInput) :
    (insertByCreatedAt x l).Perm (x :: l) := by
  induction l with
  | nil => exact List.Perm.refl _
  | cons y ys ih =>
    rw [insertByCreatedAt]
    split
    · exact List.Perm.refl _
    · exact (ih.cons y).trans (List.Perm.swap x y ys)

theorem sortByCreatedAt_perm (l : List SyncOrderInput) :
    (sortByCreatedAt l).Perm l := by
  induction l with
  | nil => exact List.Perm.refl _
  | cons x xs ih =>
    exact (insertByCreatedAt_perm x (sortByCreatedAt xs)).trans (ih.cons x)

theorem insertByCreatedAt_sorted (x : SyncOrderInput) (l : List SyncOrderInput)
    (hl : List.Sorted leByTime l) :
    List.Sorted leByTime (insertByCreatedAt x l) := by
  induction l with
  | nil => simp [insertByCreatedAt]
  | cons y ys ih =>
    rw [insertByCreatedAt]
    split
    · rename_i hxy
      refine List.sorted_cons.mpr ⟨?_, hl⟩
      intro z hz
      rcases List.mem_cons.mp hz with hzy | hzys
      · rw [hzy]
        exact hxy
      · rcases List.sorted_cons.mp hl with ⟨hy, _⟩
        exact le_trans hxy (hy z hzys)
    · rename_i hxy
      have hyx : y.createdAt ≤ x.createdAt := le_of_not_le hxy
      rcases List.sorted_cons.mp hl with ⟨hy, hys⟩
      refine List.sorted_cons.mpr ⟨?_, ih hys⟩
      intro z hz
      rcases List.mem_cons.mp ((insertByCreatedAt_perm x ys).mem_iff.mp hz) with
        hzx | hzys
      · rw [hzx]
        exact hyx
      · exact hy z hzys

theorem sortByCreatedAt_sorted (l : List SyncOrderInput) :
    List.Sorted leByTime (sortByCreatedAt l) := by
  induction l with
  | nil => simp [sortByCreatedAt]
  | cons x xs ih => exact insertByCreatedAt_sorted x (sortByCreatedAt xs) ih

theorem processSyncItem_clientId (u : String) (o : SyncOrderInput) (s : St) :
    ((processSyncItem u o s).1).clientId = o.clientId := by
  rw [processSyncItem]
  cases hk : kvGet (syncKey u o.clientId) s with
  | some m => rfl
  | none =>
    cases hc : createOrder u (syncData o) s with
    | ok p => rfl
    | error e => rfl

theorem processSyncItems_clientIds (u : String) :
    ∀ (l : List SyncOrderInput) (s : St),
      (processSyncItems u l s).1.map (fun r => r.clientId)
        = l.map (fun o => o.clientId) := by
  intro l
  induction l with
  | nil => intro s; rfl
  | cons o rest ih =>
    intro s
    rw [processSyncItems]
    simp only [List.map_cons]
    rw [processSyncItem_clientId, ih]

def c6S : St :=
  { restaurants := ["r1"]
    menuItems := [{ id := "m1", itemName := "Burger", price := 9
                    isAvailable := true, restaurantId := "r1" },
                  { id := "m2", itemName := "Pizza", price := 12
                    isAvailable := true, restaurantId := "r1" }]
    carts := [], orders := [], deliveries := [], drivers := [], kv := []
    queue := [], processing := none, isProcessing := false, nextId := 0, now := 0 }

def c6Batch : List SyncOrderInput :=
  [ { clientId := "c3", restaurantId := "r1", deliveryAddress := "10 Main Street"
      notes := none, items := [{ menuItemId := "m1", quantity := 1, notes := none }]
      createdAt := 30 },
    { clientId := "c1", restaurantId := "r1", deliveryAddress := "10 Main Street"
      notes := none, items := [{ menuItemId := "bogus", quantity := 1, notes := none }]
      createdAt := 10 },
    { clientId := "c2", restaurantId := "r1", deliveryAddress := "10 Main Street"
      notes := none, items := [{ menuItemId := "m2", quantity := 2, notes := none }]
      createdAt := 20 } ]

/-- C6: `syncOrders` replays the batch in ascending order of the
client-supplied `createdAt` (the result list lines up with the sorted
permutation of the batch, regardless of submission order), and a failing item
does not abort the rest — there is one result per submitted item.  The
concrete batch of one invalid and two valid items returns exactly three
results, two successful and one failed, and persists exactly two orders. -/
theorem C6_sync_sorted_partial_failure :
    (∀ (userId : String) (batch : List SyncOrderInput) (s : St),
        ((syncOrders userId batch s).1.map (fun r => r.clientId)
            = (sortByCreatedAt batch).map (fun o => o.clientId))
        ∧ (syncOrders userId batch s).1.length = batch.length
        ∧ List.Sorted leByTime (sortByCreatedAt batch)
        ∧ (sortByCreatedAt batch).Perm batch)
    ∧ ((syncOrders "u1" c6Batch c6S).1.length = 3
        ∧ (syncOrders "u1" c6Batch c6S).1.countP (fun r => r.success) = 2
        ∧ (syncOrders "u1" c6Batch c6S).1.countP (fun r => !r.success) = 1
        ∧ (syncOrders "u1" c6Batch c6S).2.orders.length = c6S.orders.length + 2) := by
  constructor
  · intro userId batch s
    refine ⟨processSyncItems_clientIds userId (sortByCreatedAt batch) s, ?_,
      sortByCreatedAt_sorted batch, sortByCreatedAt_perm batch⟩
    have h1 := processSyncItems_clientIds userId (sortByCreatedAt batch) s
    have h2 := congrArg List.length h1
    simp only [List.length_map] at h2
    rw [syncOrders] at *
    rw [h2, (sortByCreatedAt_perm batch).length_eq]
  · refine ⟨?_, ?_, ?_, ?_⟩ <;> with_unfolding_all decide

-- ==================== C3: SYNC IDEMPOTENCE ====================

theorem kvLookup_cons (k : String) (key : String) (m : SyncMapping)
    (kv : List (String × SyncMapping)) :
    kvLookup k ((key, m) :: kv) = if (key == k) = true then some m else kvLookup k kv := by
  rw [kvLookup, List.find?_cons]
  cases hk : (key == k)
  · rw [if_neg (by simp [hk])]
    rfl
  · rw [if_pos rfl]
    rfl

theorem syncKey_inj (u : String) (c1 c2 : String)
    (h : syncKey u c1 = syncKey u c2) : c1 = c2 := by
  rw [syncKey, syncKey] at h
  have hd := congrArg String.data h
  simp only [String.data_append] at hd
  have hc := List.append_cancel_left hd
  cases c1
  cases c2
  exact congrArg String.mk hc

/-- Full shape analysis of one sync-item step. -/
theorem processSyncItem_cases (u : String) (o : SyncOrderInput) (s : St) :
    (∃ m, kvGet (syncKey u o.clientId) s = some m
       ∧ processSyncItem u o s =
           ({ clientId := o.clientId, success := true, orderId := some m.orderId
              orderNumber := some m.orderNumber, error := none }, s))
    ∨ (∃ p : Order × St, kvGet (syncKey u o.clientId) s = none
        ∧ createOrder u (syncData o) s = .ok p
        ∧ processSyncItem u o s =
            ({ clientId := o.clientId, success := true, orderId := some p.1.id
               orderNumber := some p.1.orderNumber, error := none },
             { p.2 with kv := (syncKey u o.clientId,
                 { orderId := p.1.id, orderNumber := p.1.orderNumber }) :: p.2.kv }))
    ∨ (∃ e, kvGet (syncKey u o.clientId) s = none
        ∧ createOrder u (syncData o) s = .error e
        ∧ processSyncItem u o s =
            ({ clientId := o.clientId, success := false, orderId := none
               orderNumber := none, error := some (errMessage e) }, s)) := by
  cases hk : kvGet (syncKey u o.clientId) s with
  | some m =>
    exact Or.inl ⟨m, rfl, by simp only [processSyncItem, hk]⟩
  | none =>
    cases hc : createOrder u (syncData o) s with
    | ok p =>
      exact Or.inr (Or.inl ⟨p, rfl, rfl, by simp only [processSyncItem, hk, hc]⟩)
    | error e =>
      exact Or.inr (Or.inr ⟨e, rfl, rfl, by simp only [processSyncItem, hk, hc]⟩)

/-- `createOrder` leaves restaurants, menu, and the redis keys untouched, and
either leaves the carts alone or clears the ordering customer's cart. -/
theorem createOrder_ok_inv2 (u : String) (d : CreateOrderData) (s : St)
    (r : Order × St) (h : createOrder u d s = .ok r) :
    r.2.restaurants = s.restaurants ∧ r.2.menuItems = s.menuItems
    ∧ (r.2.carts = s.carts ∨ r.2.carts = clearCartItems u s.carts)
    ∧ r.2.kv = s.kv := by
  rw [createOrder] at h
  split at h
  · simp at h
  · cases hsi : sourceOrderItems u d s with
    | error e => rw [hsi] at h; simp at h
    | ok items =>
      rw [hsi] at h
      simp only [Except.ok.injEq] at h
      refine ⟨by rw [← h], by rw [← h], ?_, by rw [← h]⟩
      by_cases hu : usesProvidedItems d.items = true
      · left
        rw [← h]
        show (if (!usesProvidedItems d.items) = true then _ else s.carts) = s.carts
        rw [if_neg (by simp [hu])]
      · right
        rw [← h]
        show (if (!usesProvidedItems d.items) = true then clearCartItems u s.carts
          else s.carts) = clearCartItems u s.carts
        rw [if_pos (by simp [Bool.eq_false_iff.mpr hu])]

/-- State relation along sync processing: catalog unchanged, each cart either
unchanged or cleared. -/
def SyncPres (s : St) (t : St) : Prop :=
  t.restaurants = s.restaurants ∧ t.menuItems = s.menuItems
  ∧ ∀ uid : String, findCart uid t = findCart uid s
      ∨ ∃ c : Cart, findCart uid t = some c ∧ c.items = []

theorem SyncPres.refl (s : St) : SyncPres s s :=
  ⟨rfl, rfl, fun _ => Or.inl rfl⟩

theorem SyncPres.trans (s t v : St) (h1 : SyncPres s t) (h2 : SyncPres t v) :
    SyncPres s v := by
  obtain ⟨hr1, hm1, hc1⟩ := h1
  obtain ⟨hr2, hm2, hc2⟩ := h2
  refine ⟨hr2.trans hr1, hm2.trans hm1, ?_⟩
  intro uid
  rcases hc2 uid with hsame | ⟨c, hc, hemp⟩
  · rcases hc1 uid with hsame1 | ⟨c, hc, hemp⟩
    · exact Or.inl (hsame.trans hsame1)
    · exact Or.inr ⟨c, hsame.trans hc, hemp⟩
  · exact Or.inr ⟨c, hc, hemp⟩

theorem findCart_clearCartItems_map (u : String) (uid : String) (carts : List Cart) :
    (clearCartItems u carts).find? (fun c => c.userId == uid)
      = (carts.find? (fun c => c.userId == uid)).map
          (fun c => if c.userId == u then { c with items := [] } else c) := by
  rw [clearCartItems]
  exact find?_map_same_pred _ _ (fun c => by split <;> rfl) carts

theorem createOrder_pres (u : String) (d : CreateOrderData) (s : St)
    (r : Order × St) (h : createOrder u d s = .ok r) : SyncPres s r.2 := by
  obtain ⟨hres, hmenu, hcarts, _⟩ := createOrder_ok_inv2 u d s r h
  refine ⟨hres, hmenu, ?_⟩
  intro uid
  rcases hcarts with hsame | hclear
  · left
    rw [findCart, findCart, hsame]
  · rw [findCart, findCart, hclear, findCart_clearCartItems_map]
    cases hfc : s.carts.find? (fun c => c.userId == uid) with
    | none => exact Or.inl rfl
    | some c =>
      by_cases hcu : (c.userId == u) = true
      · right
        refine ⟨{ c with items := [] }, ?_, rfl⟩
        simp only [Option.map_some']
        rw [if_pos hcu]
      · left
        simp only [Option.map_some']
        rw [if_neg hcu]

theorem processSyncItem_pres (u : String) (o : SyncOrderInput) (s : St) :
    SyncPres s (processSyncItem u o s).2 := by
  rcases processSyncItem_cases u o s with
    ⟨m, _, hstep⟩ | ⟨p, _, hco, hstep⟩ | ⟨e, _, _, hstep⟩
  · rw [hstep]; exact SyncPres.refl s
  · rw [hstep]
    have hp := createOrder_pres u (syncData o) s p hco
    obtain ⟨hr, hm, hc⟩ := hp
    exact ⟨hr, hm, fun uid => by
      rcases hc uid with hsame | ⟨c, hcc, hemp⟩
      · exact Or.inl (by rw [findCart] at hsame ⊢; exact hsame)
      · exact Or.inr ⟨c, by rw [findCart] at hcc ⊢; exact hcc, hemp⟩⟩
  · rw [hstep]; exact SyncPres.refl s

theorem processSyncItems_pres (u : String) :
    ∀ (l : List SyncOrderInput) (s : St), SyncPres s (processSyncItems u l s).2 := by
  intro l
  induction l with
  | nil => intro s; exact SyncPres.refl s
  | cons o rest ih =>
    intro s
    rw [processSyncItems]
    exact SyncPres.trans _ _ _ (processSyncItem_pres u o s) (ih (processSyncItem u o s).2)

theorem kvGet_processSyncItem_preserved (u : String) (o : SyncOrderInput) (s : St)
    (k : String) (m : SyncMapping) (h : kvGet k s = some m) :
    kvGet k (processSyncItem u o s).2 = some m := by
  rcases processSyncItem_cases u o s with
    ⟨m', _, hstep⟩ | ⟨p, hk, hco, hstep⟩ | ⟨e, _, _, hstep⟩
  · rw [hstep]; exact h
  · rw [hstep]
    obtain ⟨_, _, _, hkv⟩ := createOrder_ok_inv2 u (syncData o) s p hco
    show kvLookup k ((syncKey u o.clientId, _) :: p.2.kv) = some m
    rw [kvLookup_cons]
    have hne : (syncKey u o.clientId == k) = false := by
      by_contra hcon
      have he : syncKey u o.clientId = k := by
        simpa using eq_true_of_ne_false hcon
      rw [kvGet, he] at hk
      rw [kvGet] at h
      rw [h] at hk
      cases hk
    rw [if_neg (by simp [hne])]
    rw [hkv]
    exact h
  · rw [hstep]; exact h

theorem kvGet_processSyncItems_preserved (u : String) :
    ∀ (l : List SyncOrderInput) (s : St) (k : String) (m : SyncMapping),
      kvGet k s = some m → kvGet k (processSyncItems u l s).2 = some m := by
  intro l
  induction l with
  | nil => intro s k m h; exact h
  | cons o rest ih =>
    intro s k m h
    rw [processSyncItems]
    exact ih (processSyncItem u o s).2 k m (kvGet_processSyncItem_preserved u o s k m h)

theorem kvGet_processSyncItem_none (u : String) (o : SyncOrderInput) (s : St)
    (k : String) (hnone : kvGet k s = none)
    (hmiss : syncKey u o.clientId ≠ k) :
    kvGet k (processSyncItem u o s).2 = none := by
  rcases processSyncItem_cases u o s with
    ⟨m', _, hstep⟩ | ⟨p, hk, hco, hstep⟩ | ⟨e, _, _, hstep⟩
  · rw [hstep]; exact hnone
  · rw [hstep]
    obtain ⟨_, _, _, hkv⟩ := createOrder_ok_inv2 u (syncData o) s p hco
    show kvLookup k ((syncKey u o.clientId, _) :: p.2.kv) = none
    rw [kvLookup_cons]
    rw [if_neg (by simp [hmiss])]
    rw [hkv]
    exact hnone
  · rw [hstep]; exact hnone

theorem kvGet_processSyncItems_none (u : String) :
    ∀ (l : List SyncOrderInput) (s : St) (k : String),
      kvGet k s = none → (∀ o ∈ l, syncKey u o.clientId ≠ k) →
      kvGet k (processSyncItems u l s).2 = none := by
  intro l
  induction l with
  | nil => intro s k h _; exact h
  | cons o rest ih =>
    intro s k h hmiss
    rw [processSyncItems]
    exact ih (processSyncItem u o s).2 k
      (kvGet_processSyncItem_none u o s k h (hmiss o (List.mem_cons_self o rest)))
      (fun o' ho' => hmiss o' (List.mem_cons_of_mem o ho'))

theorem buildItemsFromInputs_congr (rid : String) (s : St) (t : St)
    (hmenu : t.menuItems = s.menuItems) :
    ∀ inputs, buildItemsFromInputs rid inputs t = buildItemsFromInputs rid inputs s := by
  intro inputs
  induction inputs with
  | nil => rfl
  | cons a rest ih =>
    rw [buildItemsFromInputs, buildItemsFromInputs]
    rw [show findMenuItem a.menuItemId t = findMenuItem a.menuItemId s by
      rw [findMenuItem, findMenuItem, hmenu]]
    cases findMenuItem a.menuItemId s with
    | none => rfl
    | some mi =>
      simp only []
      rw [ih]

theorem buildItemsFromCart_congr (rid : String) (s : St) (t : St)
    (hmenu : t.menuItems = s.menuItems) :
    ∀ cartItems, buildItemsFromCart rid cartItems t = buildItemsFromCart rid cartItems s := by
  intro cartItems
  induction cartItems with
  | nil => rfl
  | cons a rest ih =>
    rw [buildItemsFromCart, buildItemsFromCart]
    rw [show findMenuItem a.menuItemId t = findMenuItem a.menuItemId s by
      rw [findMenuItem, findMenuItem, hmenu]]
    cases findMenuItem a.menuItemId s with
    | none => rfl
    | some mi =>
      simp only []
      rw [ih]

/-- A `createOrder` call that failed keeps failing after further sync
processing: the catalog is unchanged and a cart can only have been cleared,
which itself makes the cart path fail. -/
theorem createOrder_error_pres (u : String) (d : CreateOrderData) (s : St)
    (t : St) (hpres : SyncPres s t) (e : Err) (h : createOrder u d s = .error e) :
    ∃ e', createOrder u d t = .error e' := by
  obtain ⟨hres, hmenu, hcarts⟩ := hpres
  rw [createOrder] at h ⊢
  rw [hres]
  by_cases hr : s.restaurants.contains d.restaurantId = true
  · have hr' : d.restaurantId ∈ s.restaurants := by simpa using hr
    rw [if_neg (by simp [hr'])] at h ⊢
    have hsrc : ∀ e0, sourceOrderItems u d s = .error e0 →
        ∃ e1, sourceOrderItems u d t = .error e1 := by
      intro e0 h0
      rw [sourceOrderItems] at h0 ⊢
      by_cases hu : usesProvidedItems d.items = true
      · rw [if_pos hu] at h0 ⊢
        rw [buildItemsFromInputs_congr d.restaurantId s t hmenu]
        exact ⟨e0, h0⟩
      · rw [if_neg hu] at h0 ⊢
        rcases hcarts u with hsame | ⟨c, hc, hemp⟩
        · rw [hsame]
          cases hfc : findCart u s with
          | none => exact ⟨.badRequest "Cart is empty", rfl⟩
          | some cart =>
            rw [hfc] at h0
            simp only [] at h0 ⊢
            by_cases hemp : cart.items.isEmpty = true
            · rw [if_pos hemp]
              exact ⟨.badRequest "Cart is empty", rfl⟩
            · rw [if_neg hemp] at h0 ⊢
              rw [buildItemsFromCart_congr d.restaurantId s t hmenu]
              exact ⟨e0, h0⟩
        · rw [hc]
          simp only []
          rw [if_pos (by rw [hemp]; rfl)]
          exact ⟨.badRequest "Cart is empty", rfl⟩
    cases hsi : sourceOrderItems u d s with
    | ok items => rw [hsi] at h; simp at h
    | error e0 =>
      obtain ⟨e1, h1⟩ := hsrc e0 hsi
      rw [h1]
      exact ⟨e1, rfl⟩
  · have hr' : d.restaurantId ∉ s.restaurants := by simpa using hr
    rw [if_pos (by simp [hr'])]
    exact ⟨.notFound "Restaurant not found", rfl⟩

def resultCore (r : QueueResult) : String × Bool × Option String × Option String :=
  (r.clientId, r.success, r.orderId, r.orderNumber)

/-- Replaying an already-processed batch is a no-op: every item either hits
its dedup mapping (same order identity) or fails again; the state is
unchanged. -/
theorem processSyncItems_idem (u : String) :
    ∀ (l : List SyncOrderInput) (s : St),
      (l.map (fun o => o.clientId)).Nodup →
      ∃ R', processSyncItems u l (processSyncItems u l s).2
          = (R', (processSyncItems u l s).2)
        ∧ R'.map resultCore = ((processSyncItems u l s).1).map resultCore := by
  intro l
  induction l with
  | nil => intro s _; exact ⟨[], rfl, rfl⟩
  | cons o rest ih =>
    intro s hnodup
    have hnodup_rest : (rest.map (fun o => o.clientId)).Nodup :=
      (List.nodup_cons.mp hnodup).2
    have hnotmem : o.clientId ∉ rest.map (fun o => o.clientId) :=
      (List.nodup_cons.mp hnodup).1
    rcases processSyncItem_cases u o s with
      ⟨m, hk, hstep⟩ | ⟨p, hk, hco, hstep⟩ | ⟨e, hk, hco, hstep⟩
    · -- dedup hit: state unchanged, same mapping visible at the end of run 1
      obtain ⟨R2', hR2eq, hR2proj⟩ := ih s hnodup_rest
      have hkv1 : kvGet (syncKey u o.clientId) (processSyncItems u rest s).2 = some m :=
        kvGet_processSyncItems_preserved u rest s _ m hk
      have hstep2 : processSyncItem u o (processSyncItems u rest s).2 =
          ({ clientId := o.clientId, success := true, orderId := some m.orderId
             orderNumber := some m.orderNumber, error := none },
           (processSyncItems u rest s).2) := by
        simp only [processSyncItem, hkv1]
      have heq : processSyncItems u (o :: rest) s
          = ({ clientId := o.clientId, success := true, orderId := some m.orderId
               orderNumber := some m.orderNumber, error := none }
              :: (processSyncItems u rest s).1,
             (processSyncItems u rest s).2) := by
        simp only [processSyncItems, hstep]
      refine ⟨{ clientId := o.clientId, success := true, orderId := some m.orderId
                orderNumber := some m.orderNumber, error := none } :: R2', ?_, ?_⟩
      · rw [heq]
        simp only [processSyncItems, hstep2]
        rw [hR2eq]
      · rw [heq]
        simp only [List.map_cons]
        rw [hR2proj]
    · -- fresh success: the mapping written in run 1 is the dedup hit in run 2
      obtain ⟨R2', hR2eq, hR2proj⟩ := ih
        { p.2 with kv := (syncKey u o.clientId,
            { orderId := p.1.id, orderNumber := p.1.orderNumber }) :: p.2.kv }
        hnodup_rest
      have hkvs' : kvGet (syncKey u o.clientId)
          { p.2 with kv := (syncKey u o.clientId,
              { orderId := p.1.id, orderNumber := p.1.orderNumber }) :: p.2.kv }
          = some { orderId := p.1.id, orderNumber := p.1.orderNumber } := by
        show kvLookup _ ((syncKey u o.clientId, _) :: p.2.kv) = _
        rw [kvLookup_cons]
        rw [if_pos (by simp)]
      have hkv1 : kvGet (syncKey u o.clientId)
          (processSyncItems u rest
            { p.2 with kv := (syncKey u o.clientId,
                { orderId := p.1.id, orderNumber := p.1.orderNumber }) :: p.2.kv }).2
          = some { orderId := p.1.id, orderNumber := p.1.orderNumber } :=
        kvGet_processSyncItems_preserved u rest _ _ _ hkvs'
      have hstep2 : processSyncItem u o
          (processSyncItems u rest
            { p.2 with kv := (syncKey u o.clientId,
                { orderId := p.1.id, orderNumber := p.1.orderNumber }) :: p.2.kv }).2 =
          ({ clientId := o.clientId, success := true, orderId := some p.1.id
             orderNumber := some p.1.orderNumber, error := none },
           (processSyncItems u rest
            { p.2 with kv := (syncKey u o.clientId,
                { orderId := p.1.id, orderNumber := p.1.orderNumber }) :: p.2.kv }).2) := by
        simp only [processSyncItem, hkv1]
      have heq : processSyncItems u (o :: rest) s
          = ({ clientId := o.clientId, success := true, orderId := some p.1.id
               orderNumber := some p.1.orderNumber, error := none }
              :: (processSyncItems u rest
                { p.2 with kv := (syncKey u o.clientId,
                    { orderId := p.1.id, orderNumber := p.1.orderNumber }) :: p.2.kv }).1,
             (processSyncItems u rest
                { p.2 with kv := (syncKey u o.clientId,
                    { orderId := p.1.id, orderNumber := p.1.orderNumber }) :: p.2.kv }).2) := by
        simp only [processSyncItems, hstep]
      refine ⟨{ clientId := o.clientId, success := true, orderId := some p.1.id
                orderNumber := some p.1.orderNumber, error := none } :: R2', ?_, ?_⟩
      · rw [heq]
        simp only [processSyncItems, hstep2]
        rw [hR2eq]
      · rw [heq]
        simp only [List.map_cons]
        rw [hR2proj]
    · -- failure: the key is still absent at the end of run 1, and the
      -- createOrder call fails again in the evolved state
      obtain ⟨R2', hR2eq, hR2proj⟩ := ih s hnodup_rest
      have hmiss : ∀ o' ∈ rest, syncKey u o'.clientId ≠ syncKey u o.clientId := by
        intro o' ho' hcon
        exact hnotmem (List.mem_map.mpr ⟨o', ho', (syncKey_inj u _ _ hcon).symm ▸ rfl⟩)
      have hkv1 : kvGet (syncKey u o.clientId) (processSyncItems u rest s).2 = none :=
        kvGet_processSyncItems_none u rest s _ hk hmiss
      obtain ⟨e', hco2⟩ := createOrder_error_pres u (syncData o) s
        (processSyncItems u rest s).2 (processSyncItems_pres u rest s) e hco
      have hstep2 : processSyncItem u o (processSyncItems u rest s).2 =
          ({ clientId := o.clientId, success := false, orderId := none
             orderNumber := none, error := some (errMessage e') },
           (processSyncItems u rest s).2) := by
        simp only [processSyncItem, hkv1, hco2]
      have heq : processSyncItems u (o :: rest) s
          = ({ clientId := o.clientId, success := false, orderId := none
               orderNumber := none, error := some (errMessage e) }
              :: (processSyncItems u rest s).1,
             (processSyncItems u rest s).2) := by
        simp only [processSyncItems, hstep]
      refine ⟨{ clientId := o.clientId, success := false, orderId := none
                orderNumber := none, error := some (errMessage e') } :: R2', ?_, ?_⟩
      · rw [heq]
        simp only [processSyncItems, hstep2]
        rw [hR2eq]
      · rw [heq]
        simp only [List.map_cons]
        rw [hR2proj]
        rfl

/-- C3: resubmitting an identical sync batch (same customer, same client ids,
within the dedup window modelled as the persisted mapping) returns, per
clientId, the same success flag, `orderId` and `orderNumber` as the first
submission, and leaves the state — in particular the order table — exactly
unchanged, so exactly one Order exists per successful clientId across both
submissions. -/
theorem C3_sync_idempotent (userId : String) (batch : List SyncOrderInput)
    (s : St) (hnodup : (batch.map (fun o => o.clientId)).Nodup) :
    ∃ R', syncOrders userId batch ((syncOrders userId batch s).2)
        = (R', (syncOrders userId batch s).2)
      ∧ R'.map resultCore = ((syncOrders userId batch s).1).map resultCore := by
  have hperm : ((sortByCreatedAt batch).map (fun o => o.clientId)).Perm
      (batch.map (fun o => o.clientId)) :=
    (sortByCreatedAt_perm batch).map (fun o => o.clientId)
  have hsorted_nodup : ((sortByCreatedAt batch).map (fun o => o.clientId)).Nodup :=
    hperm.nodup_iff.mpr hnodup
  simp only [syncOrders]
  exact processSyncItems_idem userId (sortByCreatedAt batch) s hsorted_nodup

def c3S : St :=
  { restaurants := ["r1"]
    menuItems := [{ id := "m1", itemName := "Burger", price := 9
                    isAvailable := true, restaurantId := "r1" }]
    carts := [], orders := [], deliveries := [], drivers := [], kv := []
    queue := [], processing := none, isProcessing := false, nextId := 0, now := 0 }

def c3Batch : List SyncOrderInput :=
  [ { clientId := "c1", restaurantId := "r1", deliveryAddress := "10 Main Street"
      notes := none, items := [{ menuItemId := "m1", quantity := 1, notes := none }]
      createdAt := 10 },
    { clientId := "c2", restaurantId := "r1", deliveryAddress := "10 Main Street"
      notes := none, items := [{ menuItemId := "nope", quantity := 1, notes := none }]
      createdAt := 20 } ]

theorem C3_sync_idempotent_witness :
    ∃ R', syncOrders "u1" c3Batch ((syncOrders "u1" c3Batch c3S).2)
        = (R', (syncOrders "u1" c3Batch c3S).2)
      ∧ R'.map resultCore = ((syncOrders "u1" c3Batch c3S).1).map resultCore :=
  C3_sync_idempotent "u1" c3Batch c3S (by decide)

end RestaurantOrdering
